import Mathlib

/-!
Verification development for the ulauncher-steam extension.

The Python sources (cache.py, get.py, query.py, enter.py, const.py) are
shallowly embedded below.  Conventions used throughout:

* Python `datetime` objects are modelled by their epoch timestamp as an
  unbounded `Int` (the code only ever compares datetimes and converts them
  to/from integer epoch seconds; sub-second fractions and the finite datetime
  range are not modelled).
* Python dictionaries are modelled as association lists in insertion order,
  with `pyGet` / `pySet` / `pyDel` / `pyKeys` mirroring `d[k]`, `d[k] = v`,
  `del d[k]` and `d.keys()` for dictionaries whose keys are unique.
* Code that raises an uncaught exception is modelled in the `Except String`
  monad; the error string names the Python exception.
* Filesystem probes, subprocess calls and the remote Steam API are modelled
  as explicit function parameters.
* Only ASCII case conversion is modelled for `str.lower` / `str.upper`
  (all strings the claims exercise are ASCII).
-/

namespace UlauncherSteam

/-- Python runtime values that can appear in the JSON cache and in the
record dictionaries passed around by the extension: `None`, booleans,
integers, strings, datetimes (modelled by their epoch timestamp) and nested
string-keyed dictionaries. -/
inductive PyVal where
  | none
  | bool (b : Bool)
  | int (n : Int)
  | str (s : String)
  | dt (t : Int)
  | dict (d : List (String × PyVal))

/-- Association-list lookup, modelling Python `d[k]` / `d.get(k)` for a
dictionary with unique keys. -/
def pyGet {κ ν : Type} [DecidableEq κ] (d : List (κ × ν)) (k : κ) : Option ν :=
  match d with
  | [] => Option.none
  | (k', v) :: t => if k' = k then some v else pyGet t k

/-- Association-list update, modelling Python `d[k] = v`: replaces the value
at the first occurrence of the key, otherwise appends (insertion order). -/
def pySet {κ ν : Type} [DecidableEq κ] (d : List (κ × ν)) (k : κ) (v : ν) :
    List (κ × ν) :=
  match d with
  | [] => [(k, v)]
  | (k', v') :: t => if k' = k then (k', v) :: t else (k', v') :: pySet t k v

/-- Association-list deletion, modelling Python `del d[k]`. -/
def pyDel {κ ν : Type} [DecidableEq κ] (d : List (κ × ν)) (k : κ) :
    List (κ × ν) :=
  match d with
  | [] => []
  | (k', v') :: t => if k' = k then t else (k', v') :: pyDel t k

/-- Key list of a dictionary, modelling Python `d.keys()`. -/
def pyKeys {κ ν : Type} (d : List (κ × ν)) : List κ := d.map Prod.fst

/-- Membership test `k in d.keys()`. -/
def pyHasKey {κ ν : Type} [DecidableEq κ] (d : List (κ × ν)) (k : κ) : Bool :=
  (pyGet d k).isSome

/-- Characters Python treats as whitespace in `str.strip()` and `int()`. -/
def pyIsWs (c : Char) : Bool :=
  c = ' ' || c = '\t' || c = '\n' || c = '\x0d' || c = '\x0b' || c = '\x0c'

/-- Python `str.strip()` on a character list. -/
def stripWs (cs : List Char) : List Char :=
  ((cs.dropWhile pyIsWs).reverse.dropWhile pyIsWs).reverse

/-- Python `str.strip()`. -/
def pyStrip (s : String) : String := String.mk (stripWs s.toList)

/-- Python `str.upper()` (ASCII). -/
def pyUpper (s : String) : String := String.mk (s.toList.map Char.toUpper)

/-- Python `str.lower()` (ASCII). -/
def pyLower (s : String) : String := String.mk (s.toList.map Char.toLower)

/-- Splits a character list at every occurrence of a separator character,
keeping empty parts, modelling Python `str.split(sep)`:
the result always has one more part than there are separators. -/
def splitOnChar (sep : Char) : List Char → List (List Char)
  | [] => [[]]
  | c :: t =>
    match splitOnChar sep t with
    | [] => [[]]
    | h :: r => if c = sep then [] :: h :: r else (c :: h) :: r

/-- Python `str.split(sep)` on strings. -/
def pySplitOn (s : String) (sep : Char) : List String :=
  (splitOnChar sep s.toList).map String.mk

/-- Body of a Python integer literal after the optional sign: digits with
single underscores strictly between digits (the grammar `int()` accepts).
Returns the digits with the underscores removed. -/
def pyIntBody : List Char → Option (List Char)
  | [] => some []
  | '_' :: c :: r =>
    if c.isDigit then (pyIntBody r).map (fun ds => c :: ds) else Option.none
  | ['_'] => Option.none
  | c :: r =>
    if c.isDigit then (pyIntBody r).map (fun ds => c :: ds) else Option.none

/-- Numeric value of a digit list. -/
def natOfDigits (ds : List Char) : Nat :=
  ds.foldl (fun a c => a * 10 + (c.toNat - 48)) 0

/-- Digit run of a Python integer literal: first character must be a digit,
the rest follows `pyIntBody`. -/
def pyIntDigits (cs : List Char) : Option Nat :=
  match cs with
  | [] => Option.none
  | c :: r =>
    if c.isDigit then (pyIntBody r).map (fun ds => natOfDigits (c :: ds))
    else Option.none

/-- Python `int(s)`: surrounding whitespace, an optional sign, then digits
(with underscores between digits).  `Option.none` models `ValueError`. -/
def pyIntOfString (s : String) : Option Int :=
  match stripWs s.toList with
  | '+' :: rest => (pyIntDigits rest).map (fun n => (n : Int))
  | '-' :: rest => (pyIntDigits rest).map (fun n => -(n : Int))
  | rest => (pyIntDigits rest).map (fun n => (n : Int))

/-- Python `str(x)` for the values the cache manipulates.  Dictionaries and
datetimes only need a stand-in here: every use site immediately feeds the
result to `int()`, which fails on them just as it does on Python's repr. -/
def pyStr (v : PyVal) : String :=
  match v with
  | PyVal.none => "None"
  | PyVal.bool b => if b then "True" else "False"
  | PyVal.int n => toString n
  | PyVal.str s => s
  | PyVal.dt _ => "datetime"
  | PyVal.dict _ => "dict"

/-! ## cache.py -/

/-- Embedding of `cache.py::datetime_to_timestamp`: converts a datetime to
an integer timestamp, substituting the current time for `None`.  `now` is
the value of `datetime.now()`. -/
def datetime_to_timestamp (now : Int) (dt : Option Int) : Int := dt.getD now

/-- Embedding of `cache.py::ensure_dict_key_is_dict`: returns the dictionary
at the key (created or reset to `{}` when absent or not a dictionary) plus
the flag saying whether the key already held a dictionary, together with the
updated outer dictionary. -/
def ensure_dict_key_is_dict (d : List (String × PyVal)) (k : String) :
    (List (String × PyVal) × Bool) × List (String × PyVal) :=
  match pyGet d k with
  | some (PyVal.dict inner) => ((inner, true), d)
  | _ => (([], false), pySet d k (PyVal.dict []))

/-- Fail-fast integer parse of every entry, modelling the list
comprehension `[int(id.strip()) for id in blacklist_str_list]`: the first
entry that raises `ValueError` aborts the whole comprehension. -/
def pyIntListParse (parts : List String) : Option (List Int) :=
  match parts with
  | [] => some []
  | p :: t =>
    match pyIntOfString (pyStrip p) with
    | Option.none => Option.none
    | some n => (pyIntListParse t).map (fun l => n :: l)

/-- Embedding of `cache.py::get_blacklist`: parses the comma-separated ID
list from the named blacklist preference; any entry that fails to parse as
an integer makes the whole result the empty list.  A missing preference key
is an uncaught `KeyError`. -/
def get_blacklist (type_ : String) (preferences : List (String × String)) :
    Except String (List Int) :=
  match pyGet preferences (pyUpper type_ ++ "_BLACKLIST") with
  | Option.none => Except.error ("KeyError: blacklist preference missing")
  | some raw =>
    let blacklist_str := pyStrip raw
    if blacklist_str ≠ "" then
      match pyIntListParse (pySplitOn blacklist_str ',') with
      | some ids => Except.ok ids
      | Option.none => Except.ok []
    else Except.ok []

/-- Embedding of `cache.py::merge_dictionaries`.  The deletion pass removes
each `del_if_none` key whose update value is absent or `None`; the merge
loop iterates over `update.keys()` and unpacks each key — Python's
`for key, value in update.keys()` — which succeeds only for keys of exactly
two characters (yielding two one-character strings) and otherwise raises an
uncaught `ValueError`.  Rules are an association list of merge functions;
applying a rule reads `source[key]`, an uncaught `KeyError` when absent. -/
def merge_dictionaries (source update : List (String × PyVal))
    (del_if_none : List String)
    (rules : List (String × (PyVal → PyVal → Option PyVal))) :
    Except String (List (String × PyVal)) :=
  let source1 := del_if_none.foldl
    (fun src key =>
      if pyHasKey src key &&
          (match pyGet update key with
           | Option.none => true
           | some PyVal.none => true
           | some _ => false) then
        pyDel src key
      else src)
    source
  (pyKeys update).foldlM
    (fun src k =>
      match k.toList with
      | [c1, c2] =>
        let key := String.mk [c1]
        let value := PyVal.str (String.mk [c2])
        match pyGet rules key with
        | Option.none =>
          match value with
          | PyVal.none => Except.ok src
          | _ => Except.ok (pySet src key value)
        | some rule =>
          match pyGet src key with
          | Option.none => Except.error ("KeyError: " ++ key)
          | some old =>
            match rule old value with
            | some nv => Except.ok (pySet src key nv)
            | Option.none => Except.ok src
      | _ => Except.error ("ValueError: cannot unpack key " ++ k))
    source1

/-- Embedding of the `return_launches` closure in `cache.py::build_cache`:
merges a cached launched value (`int`, `str` of the form `TSxTIMES`, or
`None`) with an incoming launch datetime, keeping the cached value unless
the incoming datetime is strictly newer.  Any failure inside the `try`
block (unparseable cached value, or a non-datetime incoming value making
the comparison raise) falls back to the cached value.  `now` is the value
`datetime.now()` would take inside `datetime_to_timestamp`. -/
def return_launches (now : Int) (old_launched new_launched : PyVal) : Option PyVal :=
  match old_launched with
  | PyVal.none =>
    some (PyVal.int (datetime_to_timestamp now
      (match new_launched with | PyVal.dt t => some t | _ => Option.none)))
  | old =>
    match new_launched with
    | PyVal.none => some old
    | PyVal.dt tNew =>
      let parts := pySplitOn (pyStr old) 'x'
      match pyIntOfString (parts.headD "") with
      | Option.none => some old
      | some oldTs =>
        if oldTs < tNew then
          if parts.length = 2 then
            match pyIntOfString (parts.getD 1 "") with
            | Option.none => some old
            | some times =>
              some (PyVal.str (toString tNew ++ "x" ++ toString times))
          else some (PyVal.int tNew)
        else some old
    | _ => some old

/-- Timestamp of Python's `datetime.min` (year 1), the fallback
`compare_last_updated` uses when the stored timestamp fails to parse. -/
def DATETIME_MIN : Int := -62135596800

/-- Python `datetime.fromtimestamp` applied to a cache value: succeeds on
integers (and booleans, which Python treats as integers), raises `TypeError`
on anything else. -/
def py_fromtimestamp (v : PyVal) : Option Int :=
  match v with
  | PyVal.int n => some n
  | PyVal.bool b => some (if b then 1 else 0)
  | _ => Option.none

/-- Embedding of the `compare_last_updated` closure in
`cache.py::build_cache`: a category is due for refresh when its timestamp
key is missing from the `extension` dictionary, or when the stored
timestamp (falling back to `datetime.min` when it fails to parse) plus the
configured wait time is strictly before `now`.  `wait_time` is the result
of `str_to_timedelta` on the category's `UPDATE_*` preference, in
seconds. -/
def compare_last_updated (ext : List (String × PyVal)) (key : String)
    (wait_time now : Int) : Bool :=
  match pyGet ext key with
  | Option.none => true
  | some v =>
    let updated_last := (py_fromtimestamp v).getD DATETIME_MIN
    decide (updated_last + wait_time < now)

/-- Refresh decision of `cache.py::build_cache` for one cache category
(`"files"` or `"steamApi"`): the category's update flag starts `True` and
is replaced by `compare_last_updated` only when the cache has a dictionary
at `"extension"` and `force` is not set; the category is then processed
when the flag or `force` holds. -/
def build_cache_refreshes (cache : List (String × PyVal)) (force : Bool)
    (wait_time now : Int) (key : String) : Bool :=
  let upd :=
    match pyGet cache "extension" with
    | some (PyVal.dict ext) =>
      if force then true else compare_last_updated ext key wait_time now
    | some _ => true
    | Option.none => true
  upd || force

/-- Dictionary representation of an owned Steam app, from
`get.py::OwnedSteamApp`. -/
structure OwnedSteamApp where
  name : String
  playtime : Int
  icon_hash : Option String

/-- Embedding of the owned-apps pass of `cache.py::build_cache` (the loop
over `get_owned_steam_apps` results): for each owned app the cache record
is created if needed and its `name` and `playtime` fields are set; icon
hashes are collected for download.  Returns the updated `apps` section and
the icon download list. -/
def owned_apps_pass (apps : List (String × PyVal))
    (owned : List (Int × OwnedSteamApp)) :
    List (String × PyVal) × List (Int × String) :=
  owned.foldl
    (fun st p =>
      let (app_id, info) := p
      let ((cache_app, _), apps1) := ensure_dict_key_is_dict st.1 (toString app_id)
      let cache_app := pySet cache_app "name" (PyVal.str info.name)
      let cache_app := pySet cache_app "playtime" (PyVal.int info.playtime)
      (pySet apps1 (toString app_id) (PyVal.dict cache_app),
       match info.icon_hash with
       | some h => st.2 ++ [(app_id, h)]
       | Option.none => st.2))
    (apps, [])

/-- Embedding of the uninstalled-app cleanup in `cache.py::build_cache`
(the "Removing 'size' key from uninstalled Steam apps" loop): for each key
of the `apps` section, when the key parses as an integer that is absent
from the fresh installed-apps scan and the record is a dictionary with a
`size` key, that `size` key is deleted; keys that fail to parse are logged
and skipped. -/
def size_removal_pass (apps : List (String × PyVal)) (installed : List Int) :
    List (String × PyVal) :=
  (pyKeys apps).foldl
    (fun acc app_id =>
      match pyIntOfString app_id with
      | Option.none => acc
      | some n =>
        if installed.contains n then acc
        else
          match pyGet acc app_id with
          | some (PyVal.dict r) =>
            if pyHasKey r "size" then
              pySet acc app_id (PyVal.dict (pyDel r "size"))
            else acc
          | _ => acc)
    apps

/-- Field access used by the frame-property statements: the value of the
named field of the app record at the given key, `Option.none` when the key
is absent or the record is not a dictionary. -/
def appField (apps : List (String × PyVal)) (id field : String) : Option PyVal :=
  match pyGet apps id with
  | some (PyVal.dict r) => pyGet r field
  | _ => Option.none

/-- Refresh condition of amended claim C4, in the claim's vocabulary: the
category is refreshed exactly when the caller passes force, or the cache
holds no extension-metadata dictionary, or the category's timestamp key is
missing from it, or the effective last-refresh time — the stored timestamp
when it parses, `datetime.min` when it does not — plus the configured
interval lies strictly before now. -/
def category_refresh_spec (cache : List (String × PyVal)) (force : Bool)
    (interval now : Int) (key : String) : Prop :=
  force = true ∨
  (∀ ext, pyGet cache "extension" ≠ some (PyVal.dict ext)) ∨
  (∃ ext, pyGet cache "extension" = some (PyVal.dict ext) ∧
    (pyGet ext key = Option.none ∨
      ∃ v, pyGet ext key = some v ∧
        (py_fromtimestamp v).getD DATETIME_MIN + interval < now))

/-! ## get.py — manifest (VDF) decoder -/

/-- Number of occurrences of a character in a line. -/
def countChar (c : Char) (cs : List Char) : Nat := (cs.filter (fun x => x = c)).length

/-- Number of non-overlapping occurrences of the two-character sequence
backslash-quote, modelling `line.count('\\"')`. -/
def countEscQuote : List Char → Nat
  | '\\' :: '"' :: rest => 1 + countEscQuote rest
  | _ :: rest => countEscQuote rest
  | [] => 0

/-- Classification of one VDF line by `_vdf_to_dict`'s quote count:
a new-level line (two unescaped quotes), a key-value line (four), a
closing-brace line, or a line the decoder ignores. -/
inductive VdfToken where
  | push (name : String)
  | kv (k v : String)
  | close
  | skip
deriving DecidableEq

/-- Line classification of `get.py::_vdf_to_dict`: the quote count is the
number of `"` characters minus the number of escaped `\"` sequences; two
quotes open a new level named by the first quoted token, four quotes are a
key-value pair (second and fourth quoted tokens), otherwise a `}` anywhere
in the line closes a level. -/
def classifyLine (line : String) : VdfToken :=
  let cs := line.toList
  let qc : Int := (countChar '"' cs : Int) - (countEscQuote cs : Int)
  let parts := (splitOnChar '"' cs).map String.mk
  if qc = 2 then VdfToken.push (parts.getD 1 "")
  else if qc = 4 then VdfToken.kv (parts.getD 1 "") (parts.getD 3 "")
  else if cs.contains '}' then VdfToken.close
  else VdfToken.skip

/-- Navigates the nested dictionary along `path` (Python's
`add_dict = add_dict[level]` chain by reference) and sets `key` to `v` in
the dictionary reached; `Option.none` models the `KeyError`/`TypeError`
Python would raise if the path were missing or not a dictionary. -/
def setAtPath (d : List (String × PyVal)) (path : List String) (key : String)
    (v : PyVal) : Option (List (String × PyVal)) :=
  match path with
  | [] => some (pySet d key v)
  | p :: rest =>
    match pyGet d p with
    | some (PyVal.dict inner) =>
      (setAtPath inner rest key v).map (fun inner2 => pySet d p (PyVal.dict inner2))
    | _ => Option.none

/-- The line loop of `get.py::_vdf_to_dict`, carrying the accumulated
dictionary and the stack of currently open level names. -/
def vdfLoop : List String → List (String × PyVal) → List String →
    Except String (List (String × PyVal))
  | [], d, _ => Except.ok d
  | line :: rest, d, levels =>
    match classifyLine line with
    | VdfToken.push name =>
      if levels = [] then
        if d.isEmpty then vdfLoop rest (pySet d name (PyVal.dict [])) (levels ++ [name])
        else Except.error ("KeyError: additional top-level key")
      else
        match setAtPath d levels name (PyVal.dict []) with
        | some d2 => vdfLoop rest d2 (levels ++ [name])
        | Option.none => Except.error ("KeyError: invalid level path")
    | VdfToken.kv k v =>
      if levels = [] then Except.error ("KeyError: top-level key with value")
      else
        match setAtPath d levels k (PyVal.str v) with
        | some d2 => vdfLoop rest d2 levels
        | Option.none => Except.error ("KeyError: invalid level path")
    | VdfToken.close =>
      if levels = [] then Except.error ("ValueError: extra closing brace")
      else vdfLoop rest d levels.dropLast
    | VdfToken.skip => vdfLoop rest d levels

/-- Embedding of `get.py::_vdf_to_dict` over the list of lines of the
file: runs the line loop from an empty dictionary and empty level stack,
then rejects an empty result (`KeyError: no top-level key`). -/
def _vdf_to_dict (vdf_lines : List String) : Except String (List (String × PyVal)) :=
  match vdfLoop vdf_lines [] [] with
  | Except.error e => Except.error e
  | Except.ok d =>
    if d.isEmpty then Except.error ("KeyError: no top-level key found")
    else Except.ok d

/-- The four failure kinds of the manifest decoder named by claim C8 and
its amendment: a second top-level key, a key-value line outside any block,
a closing brace outside any block, and an input with no top-level key at
all. -/
inductive VdfErrKind where
  | extraTop
  | kvNoBlock
  | closeNoBlock
  | noTop
deriving DecidableEq

/-- Independent formulation of when the decoder fails, used to state claim
C8: scan the classified lines keeping only the block depth and whether a
top-level key was seen; a new level at depth zero after a top-level key was
seen, a key-value line at depth zero, or a closing brace at depth zero is
an error, and an input that ends without any top-level key is one too. -/
def vdfAbstractErr : List VdfToken → Nat → Bool → Option VdfErrKind
  | [], _, seen => if seen then Option.none else some VdfErrKind.noTop
  | t :: rest, depth, seen =>
    match t with
    | VdfToken.push _ =>
      if depth = 0 then
        if seen then some VdfErrKind.extraTop else vdfAbstractErr rest 1 true
      else vdfAbstractErr rest (depth + 1) seen
    | VdfToken.kv _ _ =>
      if depth = 0 then some VdfErrKind.kvNoBlock else vdfAbstractErr rest depth seen
    | VdfToken.close =>
      if depth = 0 then some VdfErrKind.closeNoBlock
      else vdfAbstractErr rest (depth - 1) seen
    | VdfToken.skip => vdfAbstractErr rest depth seen

/-- A level-name path is valid in a nested dictionary when every step of
it reaches a dictionary value.  On every state `_vdf_to_dict` actually
reaches, the open-level stack is a valid path. -/
def pathValid : List (String × PyVal) → List String → Prop
  | _, [] => True
  | d, p :: rest =>
    ∃ inner, pyGet d p = some (PyVal.dict inner) ∧ pathValid inner rest

/-! ## get.py — binary shortcut decoder -/

/-- ASCII byte codes of a marker string the scanner compares against. -/
def asciiCodes (s : String) : List Nat := s.toList.map Char.toNat

/-- The byte slice `buffer[a:b]`. -/
def listSlice (l : List Nat) (a b : Nat) : List Nat := (l.drop a).take (b - a)

/-- Decoding with `errors="ignore"`, restricted to the ASCII inputs the
claims exercise: bytes below 128 become characters, the rest are dropped
(multi-byte UTF-8 sequences are not modelled). -/
def decodeIgnore (l : List Nat) : String :=
  String.mk ((l.filter (fun b => b < 128)).map Char.ofNat)

/-- A marker match of the `cursor_match` closure: the decoded slice equals
the marker string.  For the ASCII markers the code uses this holds exactly
when the byte slice equals the marker's byte codes. -/
def cursorMatch (buffer : List Nat) (cursor : Nat) (marker : List Nat) : Bool :=
  decide (listSlice buffer cursor (cursor + marker.length) = marker)

/-- Index of the first zero byte at or after `cursor` (or the buffer
length), modelling the `while ... != 0: cursor += 1` scans. -/
def scanToNull (buffer : List Nat) (cursor : Nat) : Nat :=
  cursor + ((buffer.drop cursor).takeWhile (fun b => b ≠ 0)).length

/-- Little-endian value of a byte list (`int.from_bytes(..., "little")`). -/
def bytesLE (l : List Nat) : Nat := l.foldr (fun b acc => b + 256 * acc) 0

/-- Big-endian value of a byte list (`int.from_bytes(..., "big")`). -/
def bytesBE (l : List Nat) : Nat := l.foldl (fun acc b => acc * 256 + b) 0

/-- The `app_id` computation of `get_non_steam_apps`: the four bytes at the
cursor reversed (`buffer[cursor + 3 : cursor - 1 : -1]`, truncated at the
buffer end) with `\x02\x00\x00\x00` appended, read big-endian. -/
def shortcutAppId (buffer : List Nat) (cursor : Nat) : Int :=
  Int.ofNat (bytesBE
    ((listSlice buffer cursor (min (cursor + 4) buffer.length)).reverse
      ++ [2, 0, 0, 0]))

/-- Writes a key into the record of the current shortcut, modelling
`shortcuts_dict[shortcut_id][key] = value`; an uncaught `KeyError` when no
record with that id exists. -/
def shortcutWrite (dict : List (Int × List (String × PyVal))) (sid : Int)
    (key : String) (v : PyVal) :
    Except String (List (Int × List (String × PyVal))) :=
  match pyGet dict sid with
  | Option.none => Except.error ("KeyError: shortcut id")
  | some record => Except.ok (pySet dict sid (pySet record key v))

/-- One iteration of the scanning loop of `get.py::get_non_steam_apps`:
attempts, in order, the new-record marker, `appid`, `AppName`, `Exe` and
`LastPlayTime` markers at the cursor, and advances by one byte when none
matched.  `which` models `subprocess.check_output("which ...")`
(`Option.none` = `CalledProcessError`) and `fsize` models
`os.path.isfile`/`getsize` (`Option.none` = not a file). -/
def shortcutsStep (buffer : List Nat) (which : String → Option String)
    (fsize : String → Option Int) (osName : String)
    (cursor : Nat) (sid : Int) (dict : List (Int × List (String × PyVal))) :
    Except String (Nat × Int × List (Int × List (String × PyVal))) := do
  let m1 := asciiCodes ("\x00" ++ toString (sid + 1) ++ "\x00")
  let (cursor, moved, sid, dict) :=
    if cursorMatch buffer cursor m1 then
      (cursor + m1.length, true, sid + 1,
        pySet dict (sid + 1) ([] : List (String × PyVal)))
    else (cursor, false, sid, dict)
  let mAppid := asciiCodes ("\x02appid\x00")
  let (cursor, moved, dict) ←
    if cursorMatch buffer cursor mAppid then do
      let c := cursor + mAppid.length
      let dict ← shortcutWrite dict sid ("app_id")
        (PyVal.int (shortcutAppId buffer c))
      pure (c + 4, true, dict)
    else pure (cursor, moved, dict)
  let mName := asciiCodes ("\x01AppName\x00")
  let (cursor, moved, dict) ←
    if cursorMatch buffer cursor mName then do
      let start := cursor + mName.length
      let stop := scanToNull buffer start
      let dict ← shortcutWrite dict sid ("name")
        (PyVal.str (decodeIgnore (listSlice buffer start stop)))
      pure (stop + 1, true, dict)
    else pure (cursor, moved, dict)
  let mExe := asciiCodes ("\x01Exe\x00")
  let (cursor, moved, dict) ←
    if cursorMatch buffer cursor mExe then do
      let start := cursor + mExe.length
      let stop := scanToNull buffer start
      let exe0 := pyStrip (decodeIgnore (listSlice buffer start stop))
      let exe1 :=
        if osName ≠ "nt" then
          match which exe0 with
          | some out => if out ≠ "" then out else exe0
          | Option.none => exe0
        else exe0
      let (exeV, sizeV) :=
        match fsize exe1 with
        | some sz => (PyVal.str exe1, PyVal.int sz)
        | Option.none => (PyVal.none, PyVal.none)
      let dict ← shortcutWrite dict sid ("exe") exeV
      let dict ← shortcutWrite dict sid ("size_on_disk") sizeV
      pure (stop + 1, true, dict)
    else pure (cursor, moved, dict)
  let mLast := asciiCodes ("\x02LastPlayTime\x00")
  let (cursor, moved, dict) ←
    if cursorMatch buffer cursor mLast then do
      let c := cursor + mLast.length
      let launched_int := bytesLE (listSlice buffer c (min (c + 4) buffer.length))
      let dict ← shortcutWrite dict sid ("launched")
        (if launched_int ≠ 0 then PyVal.dt (Int.ofNat launched_int) else PyVal.none)
      pure (c + 4, true, dict)
    else pure (cursor, moved, dict)
  let cursor := if moved then cursor else cursor + 1
  pure (cursor, sid, dict)

/-- The scanning loop of `get.py::get_non_steam_apps`, fuelled: the cursor
strictly increases every iteration, so `buffer.length + 1` units of fuel
always suffice (the fuel-exhausted error is unreachable). -/
def shortcutsLoop (fuel : Nat) (buffer : List Nat)
    (which : String → Option String) (fsize : String → Option Int)
    (osName : String) (cursor : Nat) (sid : Int)
    (dict : List (Int × List (String × PyVal))) :
    Except String (List (Int × List (String × PyVal))) :=
  match fuel with
  | 0 => Except.error ("loop fuel exhausted")
  | fuel + 1 =>
    if cursor < buffer.length then
      match shortcutsStep buffer which fsize osName cursor sid dict with
      | Except.error e => Except.error e
      | Except.ok (cursor2, sid2, dict2) =>
        shortcutsLoop fuel buffer which fsize osName cursor2 sid2 dict2
    else Except.ok dict

/-- The record-building loop at the end of `get.py::get_non_steam_apps`:
for each parsed shortcut, the blacklist is consulted on its `app_id`
(an uncaught `KeyError` when absent), and the `NonSteamApp` construction
reads the keys `name`, `exe`, `size` and `launched` — any `KeyError` there
is caught and the record skipped. -/
def nonSteamTranslate (entries : List (Int × List (String × PyVal)))
    (app_blacklist : List Int) :
    Except String (List (Int × List (String × PyVal))) :=
  match entries with
  | [] => Except.ok []
  | (_, info) :: rest =>
    match pyGet info "app_id" with
    | some (PyVal.int appid) =>
      if app_blacklist.contains appid then nonSteamTranslate rest app_blacklist
      else
        match pyGet info "name", pyGet info "exe",
            pyGet info "size", pyGet info "launched" with
        | some nm, some ex, some sz, some la =>
          (nonSteamTranslate rest app_blacklist).map
            (fun r => pySet r appid
              [("name", nm), ("exe", ex), ("size", sz), ("launched", la)])
        | _, _, _, _ => nonSteamTranslate rest app_blacklist
    | _ => Except.error ("KeyError: app_id")

/-- Embedding of `get.py::get_non_steam_apps` on the raw shortcut-file
bytes: scans from byte 11 with shortcut id -1, then builds the result map
from the parsed records. -/
def get_non_steam_apps (buffer : List Nat) (app_blacklist : List Int)
    (which : String → Option String) (fsize : String → Option Int)
    (osName : String) :
    Except String (List (Int × List (String × PyVal))) :=
  match shortcutsLoop (buffer.length + 1) buffer which fsize osName 11 (-1) [] with
  | Except.error e => Except.error e
  | Except.ok dict => nonSteamTranslate dict app_blacklist

/-- A well-formed one-record shortcut blob: the standard 11-byte header,
the record-0 marker, then `appid` (little-endian 2960), `AppName`
(`"Doom"`), `Exe` (`"/bin/doom"`) and a zero `LastPlayTime`. -/
def shortcutsFixture : List Nat :=
  asciiCodes ("\x00shortcuts\x00") ++ asciiCodes ("\x000\x00") ++
  asciiCodes ("\x02appid\x00") ++ [144, 11, 0, 0] ++
  asciiCodes ("\x01AppName\x00") ++ asciiCodes ("Doom") ++ [0] ++
  asciiCodes ("\x01Exe\x00") ++ asciiCodes ("/bin/doom") ++ [0] ++
  asciiCodes ("\x02LastPlayTime\x00") ++ [0, 0, 0, 0]

/-! ## query.py — launch statistics -/

/-- Embedding of `query.py::timestamp_to_datetime`: converts a stored UTC
timestamp to a local datetime by adding the local-offset correction the
function computes from `mktime(localtime()) - mktime(gmtime())`; the
offset is a parameter of the model. -/
def timestamp_to_datetime (offset : Int) (timestamp : Int) : Int :=
  timestamp + offset

/-- Fail-fast integer parse of every entry, modelling the comprehension
`[int(num) for num in launched_split]`. -/
def pyIntList (parts : List String) : Option (List Int) :=
  match parts with
  | [] => some []
  | p :: t =>
    match pyIntOfString p with
    | Option.none => Option.none
    | some n => (pyIntList t).map (fun l => n :: l)

/-- Embedding of `query.py::get_launches`: reads an item dictionary's
`launched` value (either `TIMESTAMP` or `TIMESTAMPxTIMES`), returning the
last-launched datetime and the launch count; a missing or unparseable
value yields `(None, 0)`. -/
def get_launches (offset : Int) (info : List (String × PyVal)) :
    Option Int × Int :=
  match pyGet info "launched" with
  | Option.none => (Option.none, 0)
  | some PyVal.none => (Option.none, 0)
  | some v =>
    let launched_split := pySplitOn (pyStr v) 'x'
    if launched_split.length ≥ 3 then (Option.none, 0)
    else
      match pyIntList launched_split with
      | Option.none => (Option.none, 0)
      | some launched_ints =>
        (some (timestamp_to_datetime offset (launched_ints.headD 0)),
         if launched_ints.length = 2 then launched_ints.getD 1 0 else 0)

/-! ## enter.py -/

/-- Side effects `execute_action` can perform, in order: spawn a process,
save the cache, run a cache build, delete the cache file, delete the
downloaded images. -/
inductive EnterEffect where
  | spawn (cmd : String)
  | saveCache (cache : List (String × PyVal))
  | buildCache (force : Bool)
  | clearCacheFile
  | clearImagesDir

/-- Where `cache_item` points inside the cache (`apps`/`nonSteam`/`navs`
section and key), so that the in-place mutation of the selected record can
be written back. -/
inductive CacheItemPath where
  | inSection (section_ : String) (key : String)

/-- The `force_cache` variable of `execute_action`: `False`, `True`, or
the string `"skip"`. -/
inductive ForceCache where
  | noForce
  | force
  | skip

/-- Python `str.endswith`. -/
def pyEndsWith (s suffix : String) : Bool :=
  suffix.toList.isSuffixOf s.toList

/-- Python `str.startswith`. -/
def pyStartsWith (s pre : String) : Bool :=
  pre.toList.isPrefixOf s.toList

/-- Looks up a record dictionary inside a cache section the way
`execute_action` does (`"apps" in cache.keys() and str(app_id) in
cache["apps"].keys()`); `Except.error` models the `AttributeError` Python
raises when the section is present but not a dictionary, and the outer
`Option` is `none` when the section or key is missing. -/
def cacheSectionLookup (cache : List (String × PyVal)) (section_ key : String) :
    Except String (Option (List (String × PyVal))) :=
  match pyGet cache section_ with
  | Option.none => Except.ok Option.none
  | some (PyVal.dict sec) =>
    match pyGet sec key with
    | some (PyVal.dict record) => Except.ok (some record)
    | some _ => Except.error ("AttributeError: cache item is not a dictionary")
    | Option.none => Except.ok Option.none
  | some _ => Except.error ("AttributeError: cache section is not a dictionary")

/-- Writes the mutated record back at its path. -/
def cacheWriteBack (cache : List (String × PyVal)) (path : CacheItemPath)
    (record : List (String × PyVal)) : List (String × PyVal) :=
  match path with
  | CacheItemPath.inSection section_ key =>
    match pyGet cache section_ with
    | some (PyVal.dict sec) =>
      pySet cache section_ (PyVal.dict (pySet sec key (PyVal.dict record)))
    | _ => pySet cache section_ (PyVal.dict [(key, PyVal.dict record)])

/-- The two `ensure_dict_key_is_dict` calls used by the navigation
branches: ensures `cache["navs"]` is a dictionary and that it has a
dictionary at `action`, returning the updated cache. -/
def ensureNavsItem (cache : List (String × PyVal)) (action : String) :
    List (String × PyVal) :=
  let cache := (ensure_dict_key_is_dict cache "navs").2
  match pyGet cache "navs" with
  | some (PyVal.dict navs) =>
    pySet cache "navs" (PyVal.dict (ensure_dict_key_is_dict navs action).2)
  | _ => cache

/-- Embedding of `enter.py::execute_action`.  The cache (normally read
from disk by `load_cache`) is a parameter; `osName` is `os.name`; `now`
is `datetime.now()` inside `datetime_to_timestamp` and `offset` the
timezone correction of `timestamp_to_datetime`.  Returns the ordered list
of side effects the call performs.  Launch statistics are updated by the
common tail: the launch count is incremented and the `launched` field is
rewritten as `f"{datetime_to_timestamp(launched)}x{times}"`, where
`launched` is the datetime parsed from the old cache value (so the stored
timestamp is the old one unless no previous launch exists). -/
def execute_action (action : String) (preferences : List (String × String))
    (execute : Bool) (cache : List (String × PyVal)) (osName : String)
    (now offset : Int) : Except String (List EnterEffect) := do
  let command ←
    if osName = "nt" then
      match pyGet preferences "STEAM_FOLDER" with
      | Option.none => Except.error ("KeyError: STEAM_FOLDER")
      | some folder =>
        let folder := if pyEndsWith folder "\\" then folder else folder ++ "\\"
        Except.ok ("\"" ++ folder ++ "steam.exe\"")
    else Except.ok ("steam")
  let branch :
      Except String (Option (CacheItemPath × List (String × PyVal) ×
        List (String × PyVal) × List EnterEffect × ForceCache)) ← do
    if pyStartsWith action "APP" then
      match pyIntOfString ((pySplitOn action '/').getLastD "") with
      | Option.none => Except.error ("ValueError: invalid app id")
      | some app_id => do
        match ← cacheSectionLookup cache "apps" (toString app_id) with
        | some record =>
          pure (some (CacheItemPath.inSection "apps" (toString app_id), record,
            cache,
            (if execute then [EnterEffect.spawn
              (command ++ " " ++ (action.drop 3))] else []),
            ForceCache.noForce))
        | Option.none =>
          match ← cacheSectionLookup cache "nonSteam" (toString app_id) with
          | some record =>
            pure (some (CacheItemPath.inSection "nonSteam" (toString app_id),
              record, cache,
              (if execute then [EnterEffect.spawn
                (command ++ " " ++ (action.drop 3))] else []),
              ForceCache.noForce))
          | Option.none => pure Option.none
    else if pyStartsWith action "FRIEND" then
      match pyIntOfString (action.drop 6) with
      | Option.none => Except.error ("ValueError: invalid friend id")
      | some friend_id => do
        match ← cacheSectionLookup cache "friends" (toString friend_id) with
        | some record =>
          if execute then
            match pyGet preferences "FRIEND_ACTION" with
            | some "chat" =>
              pure (some (CacheItemPath.inSection "friends" (toString friend_id),
                record, cache,
                [EnterEffect.spawn (command ++ " steam://friends/message/" ++
                  toString friend_id)], ForceCache.noForce))
            | some "profile" =>
              pure (some (CacheItemPath.inSection "friends" (toString friend_id),
                record, cache,
                [EnterEffect.spawn (command ++ " steam://url/SteamIDPage/" ++
                  toString friend_id)], ForceCache.noForce))
            | some _ => pure Option.none
            | Option.none => Except.error ("KeyError: FRIEND_ACTION")
          else
            pure (some (CacheItemPath.inSection "friends" (toString friend_id),
              record, cache, [], ForceCache.noForce))
        | Option.none => pure Option.none
    else if pyStartsWith action "s:" || pyStartsWith action "w:" then do
      let toRun? :
          Option String :=
        if pyStartsWith action "s:" then
          some (command ++ " steam://" ++ (action.drop 2))
        else if osName = "nt" then
          some ("xdg-open https://" ++ (action.drop 2))
        else Option.none
      match toRun? with
      | Option.none => pure Option.none
      | some toRun =>
        let cache := ensureNavsItem cache action
        match ← cacheSectionLookup cache "navs" action with
        | some record =>
          pure (some (CacheItemPath.inSection "navs" action, record, cache,
            (if execute then [EnterEffect.spawn toRun] else []),
            ForceCache.noForce))
        | Option.none => pure Option.none
    else if action = "update_cache" then do
      let cache := ensureNavsItem cache action
      match ← cacheSectionLookup cache "navs" action with
      | some record =>
        pure (some (CacheItemPath.inSection "navs" action, record, cache, [],
          if execute then ForceCache.force else ForceCache.noForce))
      | Option.none => pure Option.none
    else if action = "clear_cache" then
      if execute then
        pure Option.none
      else do
        let cache := ensureNavsItem cache action
        match ← cacheSectionLookup cache "navs" action with
        | some record =>
          pure (some (CacheItemPath.inSection "navs" action, record, cache, [],
            ForceCache.noForce))
        | Option.none => pure Option.none
    else if action = "clear_images" then do
      let cache := ensureNavsItem cache action
      match ← cacheSectionLookup cache "navs" action with
      | some record =>
        pure (some (CacheItemPath.inSection "navs" action, record, cache,
          (if execute then [EnterEffect.clearImagesDir] else []),
          if execute then ForceCache.skip else ForceCache.noForce))
      | Option.none => pure Option.none
    else if action = "rebuild_cache" then
      if execute then
        pure Option.none
      else do
        let cache := ensureNavsItem cache action
        match ← cacheSectionLookup cache "navs" action with
        | some record =>
          pure (some (CacheItemPath.inSection "navs" action, record, cache, [],
            ForceCache.noForce))
        | Option.none => pure Option.none
    else
      pure Option.none
  match branch with
  | Option.none =>
    if action = "clear_cache" && execute then
      pure [EnterEffect.clearCacheFile]
    else if action = "rebuild_cache" && execute then
      pure [EnterEffect.clearCacheFile, EnterEffect.clearImagesDir,
        EnterEffect.buildCache false]
    else
      pure []
  | some (path, cache_item, cache, effectsSoFar, force_cache) =>
    let (launched, times) := get_launches offset cache_item
    let times := times + 1
    let cache_item := pySet cache_item "launched"
      (PyVal.str (toString (datetime_to_timestamp now launched) ++ "x" ++
        toString times))
    let cache := cacheWriteBack cache path cache_item
    let tail :=
      [EnterEffect.saveCache cache] ++
      (match execute, force_cache with
       | true, ForceCache.noForce => [EnterEffect.buildCache false]
       | true, ForceCache.force => [EnterEffect.buildCache true]
       | _, _ => [])
    pure (effectsSoFar ++ tail)

/-! ## query.py — items and their display strings -/

/-- Split at every non-overlapping occurrence of a (nonempty) separator
list, modelling Python `str.split(sep)` for a string separator.  The
recursion is on a fuel that starts at the list's length; every step
consumes at least one list element per fuel unit, so the fuel-exhausted
base case only ever sees the empty list and returns its `[[]]`. -/
def splitFuel (sub : List Char) : Nat → List Char → List (List Char)
  | 0, _ => [[]]
  | fuel + 1, l =>
    match l with
    | [] => [[]]
    | c :: t =>
      if sub ≠ [] ∧ sub.isPrefixOf (c :: t) then
        [] :: splitFuel sub fuel (t.drop (sub.length - 1))
      else
        match splitFuel sub fuel t with
        | [] => [[]]
        | h2 :: r => (c :: h2) :: r

/-- Split at every non-overlapping occurrence of a (nonempty) separator
list, modelling Python `str.split(sep)` for a string separator. -/
def splitOnList (sub l : List Char) : List (List Char) :=
  splitFuel sub l.length l

/-- Python `str.split(sep)` with a string separator. -/
def pySplitOnSub (s sub : String) : List String :=
  (splitOnList sub.toList s.toList).map String.mk

/-- Python `str.split()` (no separator): splits on whitespace runs,
dropping empty parts. -/
def pySplitWs (s : String) : List String :=
  ((s.toList.splitOnP pyIsWs).map String.mk).filter (fun p => p ≠ "")

/-- Whether `sub` occurs as a contiguous substring (Python `sub in s`). -/
def containsSub (s sub : List Char) : Bool :=
  if sub.isPrefixOf s then true
  else
    match s with
    | [] => false
    | _ :: t => containsSub t sub

/-- Python `sub in s` on strings. -/
def pyContains (s sub : String) : Bool := containsSub s.toList sub.toList

/-- Replaces every non-overlapping occurrence of `pat` (nonempty) by
`repl`, left to right, modelling Python `str.replace`.  Fuelled like
`splitFuel`: the fuel starts at the list's length and never runs out
before the list does. -/
def replaceFuel (pat repl : List Char) : Nat → List Char → List Char
  | 0, l => l
  | fuel + 1, l =>
    match l with
    | [] => []
    | c :: t =>
      if pat ≠ [] ∧ pat.isPrefixOf (c :: t) then
        repl ++ replaceFuel pat repl fuel (t.drop (pat.length - 1))
      else c :: replaceFuel pat repl fuel t

/-- Replaces every non-overlapping occurrence of `pat` (nonempty) by
`repl`, left to right, modelling Python `str.replace`. -/
def replaceList (pat repl l : List Char) : List Char :=
  replaceFuel pat repl l.length l

/-- Python `str.replace` on strings. -/
def pyReplace (s pat repl : String) : String :=
  String.mk (replaceList pat.toList repl.toList s.toList)

/-- Python `sep.join(parts)`. -/
def pyJoin (sep : String) (parts : List String) : String :=
  String.intercalate sep parts

/-- Zero-pads the decimal representation of `n` to `width` digits. -/
def padZeros (width : Nat) (n : Nat) : String :=
  let s := toString n
  String.mk (List.replicate (width - s.length) '0') ++ s

/-- Fixed-point formatting of the nonnegative rational `num / den` with
the given number of decimals, rounding half to even, modelling Python
`f"{x:.1f}"` / `f"{x:.2f}"` on the exact value (the double rounding of
the intermediate float is not modelled; `den > 0`). -/
def formatFixed (num den : Nat) (decimals : Nat) : String :=
  let scale := 10 ^ decimals
  let p := num * scale
  let q := p / den
  let r := p % den
  let q :=
    if 2 * r > den then q + 1
    else if 2 * r < den then q
    else if q % 2 = 1 then q + 1 else q
  toString (q / scale) ++ "." ++ padZeros decimals (q % scale)

/-- Month abbreviations of `strftime("%b")` in the C locale. -/
def monthAbbrev (m : Int) : String :=
  match m with
  | 1 => "Jan" | 2 => "Feb" | 3 => "Mar" | 4 => "Apr"
  | 5 => "May" | 6 => "Jun" | 7 => "Jul" | 8 => "Aug"
  | 9 => "Sep" | 10 => "Oct" | 11 => "Nov" | 12 => "Dec"
  | _ => "???"

/-- Civil date (year, month, day) of the day count since the epoch
(standard days-from-civil inverse). -/
def civilFromDays (z0 : Int) : Int × Int × Int :=
  let z := z0 + 719468
  let era := Int.fdiv z 146097
  let doe := z - era * 146097
  let yoe := Int.fdiv (doe - Int.fdiv doe 1460 + Int.fdiv doe 36524
    - Int.fdiv doe 146096) 365
  let doy := doe - (365 * yoe + Int.fdiv yoe 4 - Int.fdiv yoe 100)
  let mp := Int.fdiv (5 * doy + 2) 153
  let d := doy - Int.fdiv (153 * mp + 2) 5 + 1
  let m := mp + (if mp < 10 then 3 else -9)
  (yoe + era * 400 + (if m ≤ 2 then 1 else 0), m, d)

/-- `datetime.strftime(dt, "%b %d, %Y")` on an epoch-seconds datetime. -/
def strftimeB (t : Int) : String :=
  let (y, m, d) := civilFromDays (Int.fdiv t 86400)
  monthAbbrev m ++ " " ++ padZeros 2 d.toNat ++ ", " ++ toString y

/-- Embedding of `query.py::get_lang_string` (non-strict): the string for
the key in the requested language, falling back to the default language
`en-GB` and finally to the key itself. -/
def get_lang_string (lang : List (String × List (String × String)))
    (language key : String) : String :=
  match pyGet lang key with
  | some row =>
    match pyGet row language with
    | some s => s
    | Option.none =>
      match pyGet row "en-GB" with
      | some s => s
      | Option.none => key
  | Option.none => key

/-- Embedding of `query.py::get_lang_string` with `strict=True`:
`Option.none` models the raised `KeyError`. -/
def get_lang_string_strict (lang : List (String × List (String × String)))
    (language key : String) : Option String :=
  match pyGet lang key with
  | some row =>
    match pyGet row language with
    | some s => some s
    | Option.none => pyGet row "en-GB"
  | Option.none => Option.none

/-- The fields of `query.py::SteamExtensionItem` the queries use
(`preferences` and `lang` are passed to the methods instead of being
stored). -/
structure SteamExtensionItem where
  type : String
  id : Option Int := Option.none
  non_steam : Bool := false
  name : Option String := Option.none
  display_name : Option String := Option.none
  real_name : Option String := Option.none
  description : Option String := Option.none
  created : Option Int := Option.none
  location : Option String := Option.none
  size : Int := 0
  playtime : Int := 0
  icon : String := ""
  updated : Option Int := Option.none
  launched : Option Int := Option.none
  times : Int := 0

/-- External collaborators of `query_cache`, passed as parameters:
the extension install path and path separator, the filesystem probe
`os.path.isfile`, the expanded home directory `Path("~").expanduser()`,
the timezone offset of `timestamp_to_datetime`, the required-preference
ids read from `manifest.json`, and the float-weighted ranking sort of the
search branch (`sorted(items, key=get_placement)`), which floating-point
arithmetic keeps outside the embedding — the theorems that touch it
assume only that it permutes its input, which any `sorted` call does. -/
structure QueryEnv where
  extensionPath : String
  dirSep : String
  isfile : String → Bool
  homePath : String
  offset : Int
  requiredPrefs : List String
  placementSort : List SteamExtensionItem → List SteamExtensionItem

/-- Embedding of `SteamExtensionItem.get_name`. -/
def get_name (lang : List (String × List (String × String)))
    (preferences : List (String × String)) (item : SteamExtensionItem) :
    Except String String :=
  match item.display_name with
  | some dn => Except.ok dn
  | Option.none =>
    match item.name with
    | some n => Except.ok n
    | Option.none =>
      match pyGet preferences "LANGUAGE" with
      | some language => Except.ok (get_lang_string lang language "name_missing")
      | Option.none => Except.error ("KeyError: LANGUAGE")

/-- Size rendering of `SteamExtensionItem.get_description` (`B`, `KB`,
`MB`, `GB`, `TB` with two decimals above bytes). -/
def sizeText (size : Int) : String :=
  if size < 1000 then toString size ++ " B"
  else if size < 1000 ^ 2 then formatFixed size.toNat 1000 2 ++ " KB"
  else if size < 1000 ^ 3 then formatFixed size.toNat (1000 ^ 2) 2 ++ " MB"
  else if size < 1000 ^ 4 then formatFixed size.toNat (1000 ^ 3) 2 ++ " GB"
  else formatFixed size.toNat (1000 ^ 4) 2 ++ " TB"

/-- Embedding of `SteamExtensionItem.get_description`.  App items compose
playtime, last-launch date, install location (trimmed of its
`steamapps`-suffixed component, of a trailing `.steam`, and replaced by
`/` when it is the home directory) and size, ending with the app id;
friend items compose real name and location under the `SHOW_REAL`
preference (an uncaught `KeyError` when it is missing) and end with the
steamID64; other items show their stored description. -/
def get_description (env : QueryEnv) (preferences : List (String × String))
    (item : SteamExtensionItem) : Except String String :=
  let add_divider := fun (d : String) => if d ≠ "" then d ++ " | " else d
  if item.type = "app" then
    let description := ""
    let description :=
      if item.playtime > 0 then
        description ++ formatFixed item.playtime.toNat 60 1 ++ " hrs"
      else description
    let description :=
      match item.launched with
      | some t => add_divider description ++ strftimeB t
      | Option.none => description
    let (description, location_added) :=
      match item.location with
      | some loc =>
        let location_str := pyJoin env.dirSep
          ((pySplitOnSub
            ((pySplitOnSub loc (env.dirSep ++ "steamapps" ++ env.dirSep)).headD "")
            env.dirSep).dropLast)
        let location_str :=
          if pyEndsWith location_str (env.dirSep ++ ".steam") then
            pyJoin env.dirSep ((pySplitOnSub location_str env.dirSep).dropLast)
          else location_str
        let location_str :=
          if location_str = env.homePath then "/" else location_str
        (add_divider description ++ location_str, true)
      | Option.none => (description, false)
    let description :=
      if item.size > 0 then
        (if location_added then
          (if ¬ pyEndsWith description ":" then description ++ ":"
           else description) ++ " "
         else add_divider description) ++ sizeText item.size
      else description
    Except.ok (add_divider description ++
      (match item.id with
       | some n => toString n
       | Option.none => "None"))
  else if item.type = "friend" then
    match pyGet preferences "SHOW_REAL" with
    | Option.none => Except.error ("KeyError: SHOW_REAL")
    | some show_real =>
      let description := ""
      let description :=
        match item.real_name with
        | some rn =>
          if show_real = "all" || show_real = "onlyNames" then description ++ rn
          else description
        | Option.none => description
      let description :=
        match item.location with
        | some loc =>
          if show_real = "all" || show_real = "onlyLocations" then
            add_divider description ++ loc
          else description
        | Option.none => description
      Except.ok (add_divider description ++
        (match item.id with
         | some n => toString n
         | Option.none => "None"))
  else
    match item.description with
    | some d => Except.ok d
    | Option.none => Except.ok ""

/-- Embedding of `SteamExtensionItem.to_sort_list`: the key used by the
empty-search sort — negated launch timestamp (0 when never launched),
negated playtime, then the lowercased name (`"ÿÿ"` when absent). -/
def to_sort_list (item : SteamExtensionItem) : Int × Int × List Char :=
  (match item.launched with
   | some t => -t
   | Option.none => 0,
   -item.playtime,
   match item.name with
   | some n => (pyLower n).toList
   | Option.none => ['\xff', '\xff'])

/-- Code-point comparison of character lists, modelling Python string
`<=`. -/
def charListLE : List Char → List Char → Bool
  | [], _ => true
  | _ :: _, [] => false
  | a :: as_, b :: bs =>
    if a < b then true else if b < a then false else charListLE as_ bs

/-- Lexicographic comparison of `to_sort_list` keys, modelling Python's
tuple comparison in `sorted(items, key=...)`. -/
def sortKeyLE (a b : Int × Int × List Char) : Bool :=
  if a.1 < b.1 then true
  else if b.1 < a.1 then false
  else if a.2.1 < b.2.1 then true
  else if b.2.1 < a.2.1 then false
  else charListLE a.2.2 b.2.2

/-- The empty-search sort `sorted(items, key=lambda x: x.to_sort_list())`:
Python's `sorted` is the stable ascending sort by the key order, which is
what insertion sort with a total preorder computes. -/
def emptySortItems (items : List SteamExtensionItem) : List SteamExtensionItem :=
  List.insertionSort
    (fun x y => sortKeyLE (to_sort_list x) (to_sort_list y) = true) items

/-- Preference lookup `preferences[k]`: an uncaught `KeyError` when the
key is missing. -/
def prefGet (preferences : List (String × String)) (k : String) :
    Except String String :=
  match pyGet preferences k with
  | some v => Except.ok v
  | Option.none => Except.error ("KeyError: " ++ k)

/-- The default icon path `DEFAULT_ICON`. -/
def defaultIcon (env : QueryEnv) : String :=
  env.extensionPath ++ "images" ++ env.dirSep ++ "icon.png"

/-- Icon validation of `SteamExtensionItem.__init__`: a provided icon is
kept only when it starts with the extension path, otherwise (or when none
is provided) the default icon is used. -/
def itemIcon (env : QueryEnv) (icon : Option String) : String :=
  match icon with
  | some i => if pyStartsWith i env.extensionPath then i else defaultIcon env
  | Option.none => defaultIcon env

/-- A cache value read as an optional string: stored `None` and a missing
key behave like Python `None`; other non-string values would make the
downstream string operations raise, modelled as an error. -/
def asOptStr (v : Option PyVal) : Except String (Option String) :=
  match v with
  | Option.none => Except.ok Option.none
  | some PyVal.none => Except.ok Option.none
  | some (PyVal.str s) => Except.ok (some s)
  | some _ => Except.error ("TypeError: expected a string value")

/-- A cache value read as an integer with a default (`d.get(key, 0)`):
non-integer values make the arithmetic and comparisons applied to them
raise, modelled as an error. -/
def asIntDefault (v : Option PyVal) (dflt : Int) : Except String Int :=
  match v with
  | Option.none => Except.ok dflt
  | some (PyVal.int n) => Except.ok n
  | some (PyVal.bool b) => Except.ok (if b then 1 else 0)
  | some _ => Except.error ("TypeError: expected an integer value")

/-- Embedding of the `compare_launches` closure of `query_cache`: returns
the item's launch data from `get_launches` and the updated
`(oldest_launched, most_times)` accumulator (the stored launch time
replaces the accumulator when strictly newer, the count when strictly
larger). -/
def compare_launches (offset : Int) (st : Option Int × Int)
    (info : List (String × PyVal)) :
    (Option Int × Int) × (Option Int × Int) :=
  let (launched, times) := get_launches offset info
  let oldest :=
    match launched, st.1 with
    | some l, Option.none => some l
    | some l, some o => if l > o then some l else some o
    | Option.none, o => o
  let most := if times > st.2 then times else st.2
  ((oldest, most), (launched, times))

/-- The Steam-apps loop of `query_cache` (the `cache["apps"]` pass):
an id that fails to parse is an uncaught `ValueError` (the parse happens
before the `try` that is meant to guard it); blacklisted ids and
non-dictionary records are skipped; uninstalled apps are dropped when
`SHOW_UNINSTALLED` is `"false"`; each kept record becomes an `app` item
with a `launch_%a` / `install_%a` display name. -/
def appsLoop (env : QueryEnv) (lang : List (String × List (String × String)))
    (preferences : List (String × String)) (app_blacklist : List Int)
    (entries : List (String × PyVal)) (st : Option Int × Int) :
    Except String (List SteamExtensionItem × (Option Int × Int)) :=
  match entries with
  | [] => Except.ok ([], st)
  | (app_id, app_info) :: rest =>
    match pyIntOfString app_id with
    | Option.none => Except.error ("ValueError: invalid app id")
    | some app_id_int =>
      if app_blacklist.contains app_id_int then
        appsLoop env lang preferences app_blacklist rest st
      else
        match app_info with
        | PyVal.dict info => do
          let location ← asOptStr (pyGet info "dir")
          let size ← asIntDefault (pyGet info "size") 0
          let show_uninstalled ← prefGet preferences "SHOW_UNINSTALLED"
          if show_uninstalled = "false" ∧ location = Option.none ∧ size = 0 then
            appsLoop env lang preferences app_blacklist rest st
          else do
            let name ←
              match pyGet info "name" with
              | some (PyVal.str s) => Except.ok s
              | some _ => Except.error ("TypeError: name is not a string")
              | Option.none => Except.error ("KeyError: name")
            let language ← prefGet preferences "LANGUAGE"
            let display_name :=
              if location.isSome ∨ size > 0 then
                pyReplace (get_lang_string lang language "launch_%a") "%a" name
              else
                pyReplace (get_lang_string lang language "install_%a") "%a" name
            let playtime ← asIntDefault (pyGet info "playtime") 0
            let icon_path := env.extensionPath ++ "images" ++ env.dirSep ++
              "apps" ++ env.dirSep ++ toString app_id_int ++ ".jpg"
            let icon :=
              if env.isfile icon_path then some icon_path else Option.none
            let (st2, lt) := compare_launches env.offset st info
            let item : SteamExtensionItem :=
              { type := "app", id := some app_id_int, name := some name,
                display_name := some display_name, location := location,
                size := size, playtime := playtime, icon := itemIcon env icon,
                launched := lt.1, times := lt.2 }
            (appsLoop env lang preferences app_blacklist rest st2).map
              (fun r => (item :: r.1, r.2))
        | _ => appsLoop env lang preferences app_blacklist rest st

/-- The non-Steam-apps loop of `query_cache` (the `cache["nonSteam"]`
pass): ids that fail to parse and blacklisted ids are skipped; a
non-dictionary record is only logged, so the subsequent `app_info["name"]`
raises (modelled as an error). -/
def nonSteamLoop (env : QueryEnv) (lang : List (String × List (String × String)))
    (preferences : List (String × String)) (app_blacklist : List Int)
    (entries : List (String × PyVal)) (st : Option Int × Int) :
    Except String (List SteamExtensionItem × (Option Int × Int)) :=
  match entries with
  | [] => Except.ok ([], st)
  | (app_id, app_info) :: rest =>
    match pyIntOfString app_id with
    | Option.none => nonSteamLoop env lang preferences app_blacklist rest st
    | some app_id_int =>
      if app_blacklist.contains app_id_int then
        nonSteamLoop env lang preferences app_blacklist rest st
      else
        match app_info with
        | PyVal.dict info => do
          let name ←
            match pyGet info "name" with
            | some (PyVal.str s) => Except.ok s
            | some _ => Except.error ("TypeError: name is not a string")
            | Option.none => Except.error ("KeyError: name")
          let language ← prefGet preferences "LANGUAGE"
          let display_name :=
            pyReplace (get_lang_string lang language "launch_%a") "%a" name
          let location ← asOptStr (pyGet info "exe")
          let size ← asIntDefault (pyGet info "size") 0
          let icon_path := env.extensionPath ++ "images" ++ env.dirSep ++
            "apps" ++ env.dirSep ++ toString app_id_int
          let icon :=
            if env.isfile (icon_path ++ ".png") then some (icon_path ++ ".png")
            else if env.isfile (icon_path ++ ".jpg") then some (icon_path ++ ".jpg")
            else Option.none
          let (st2, lt) := compare_launches env.offset st info
          let item : SteamExtensionItem :=
            { type := "app", id := some app_id_int, non_steam := true,
              name := some name, display_name := some display_name,
              location := location, icon := itemIcon env icon, size := size,
              launched := lt.1, times := lt.2 }
          (nonSteamLoop env lang preferences app_blacklist rest st2).map
            (fun r => (item :: r.1, r.2))
        | _ => Except.error ("TypeError: non-Steam app record is not a dictionary")

/-- Location text of a friend record: country, prefixed by the state name
(resolved through `cache["countries"]` when present there, an uncaught
`KeyError` when that section is missing) and by the city name when
resolvable. -/
def friendLocation (cache : List (String × PyVal))
    (info : List (String × PyVal)) : Except String (Option String) := do
  match pyGet info "country" with
  | Option.none => Except.ok Option.none
  | some countryV =>
    match countryV with
    | PyVal.str country => do
      let location := country
      match pyGet info "state" with
      | Option.none => Except.ok (some location)
      | some stateV =>
        match stateV with
        | PyVal.str state => do
          let countries ←
            match pyGet cache "countries" with
            | some (PyVal.dict c) => Except.ok c
            | some _ =>
              Except.error ("AttributeError: countries is not a dictionary")
            | Option.none => Except.error ("KeyError: countries")
          let location ←
            match pyGet countries country with
            | some (PyVal.dict stateTable) =>
              match pyGet stateTable state with
              | some (PyVal.dict stateRec) =>
                match pyGet stateRec "name" with
                | some nameV => Except.ok (pyStr nameV ++ ", " ++ location)
                | Option.none => Except.error ("KeyError: state name")
              | some _ =>
                Except.error ("TypeError: state record is not a dictionary")
              | Option.none => Except.ok (state ++ ", " ++ location)
            | some _ =>
              Except.error ("AttributeError: country table is not a dictionary")
            | Option.none => Except.ok (state ++ ", " ++ location)
          match pyGet info "city" with
          | Option.none => Except.ok (some location)
          | some cityV =>
            match pyGet countries country with
            | some (PyVal.dict stateTable) =>
              match pyGet stateTable state with
              | some (PyVal.dict stateRec) =>
                match pyGet stateRec (pyStr cityV) with
                | some cityName =>
                  Except.ok (some (pyStr cityName ++ ", " ++ location))
                | Option.none => Except.ok (some location)
              | _ => Except.ok (some location)
            | _ => Except.ok (some location)
        | _ => Except.error ("TypeError: state is not a string")
    | _ => Except.error ("TypeError: country is not a string")

/-- A timestamp field read through
`query.py::timestamp_to_datetime_from_dict`. -/
def timestamp_to_datetime_from_dict (offset : Int)
    (info : List (String × PyVal)) (key : String) :
    Except String (Option Int) :=
  match pyGet info key with
  | Option.none => Except.ok Option.none
  | some PyVal.none => Except.ok Option.none
  | some (PyVal.int t) => Except.ok (some (timestamp_to_datetime offset t))
  | some (PyVal.bool b) =>
    Except.ok (some (timestamp_to_datetime offset (if b then 1 else 0)))
  | some _ => Except.error ("TypeError: timestamp is not an integer")

/-- The friends loop of `query_cache`: unparseable ids, blacklisted ids
and non-dictionary records are skipped; the display name falls back to the
id string; location, last-logoff and creation time are resolved as in the
source. -/
def friendsLoop (env : QueryEnv) (preferences : List (String × String))
    (cache : List (String × PyVal)) (friend_blacklist : List Int)
    (entries : List (String × PyVal)) (st : Option Int × Int) :
    Except String (List SteamExtensionItem × (Option Int × Int)) :=
  match entries with
  | [] => Except.ok ([], st)
  | (friend_id, friend_info) :: rest =>
    match pyIntOfString friend_id with
    | Option.none => friendsLoop env preferences cache friend_blacklist rest st
    | some friend_id_int =>
      if friend_blacklist.contains friend_id_int then
        friendsLoop env preferences cache friend_blacklist rest st
      else
        match friend_info with
        | PyVal.dict info => do
          let name ←
            match pyGet info "name" with
            | some (PyVal.str s) => Except.ok s
            | some _ => Except.error ("TypeError: name is not a string")
            | Option.none => Except.ok friend_id
          let real_name ← asOptStr (pyGet info "realName")
          let location ← friendLocation cache info
          let icon_path := env.extensionPath ++ "images" ++ env.dirSep ++
            "friends" ++ env.dirSep ++ toString friend_id_int ++ ".jpg"
          let icon := itemIcon env (some
            (if env.isfile icon_path then icon_path
             else env.extensionPath ++ "images" ++ env.dirSep ++
               "friend-default.jpg"))
          let updated ← timestamp_to_datetime_from_dict env.offset info "updated"
          let created ← timestamp_to_datetime_from_dict env.offset info "created"
          let (st2, lt) := compare_launches env.offset st info
          let item : SteamExtensionItem :=
            { type := "friend", id := some friend_id_int, name := some name,
              real_name := real_name, created := created, location := location,
              icon := icon, updated := updated, launched := lt.1,
              times := lt.2 }
          (friendsLoop env preferences cache friend_blacklist rest st2).map
            (fun r => (item :: r.1, r.2))
        | _ => friendsLoop env preferences cache friend_blacklist rest st

/-- The active navigation templates of `const.py::STEAM_NAVIGATIONS`
(commented-out entries omitted, as in the source). -/
def STEAM_NAVIGATIONS : List String :=
  ["s:backup/%a", "s:cdkeys/%a", "s:controllerconfig/%a", "s:exit",
   "s:forceinputappid/%a", "s:friends/message/%f", "s:friends/players",
   "s:friends/status/away", "s:friends/status/invisible",
   "s:friends/status/offline", "s:friends/status/online",
   "s:gameproperties/%a", "s:musicplayer/decreasevolume",
   "s:musicplayer/increasevolume", "s:musicplayer/pause",
   "s:musicplayer/play", "s:musicplayer/playnext",
   "s:musicplayer/playprevious", "s:musicplayer/togglemute",
   "s:musicplayer/toggleplayingrepeatstatus",
   "s:musicplayer/toggleplayingshuffled", "s:musicplayer/toggleplaypause",
   "s:open/activateproduct", "s:open/bigpicture", "s:open/console",
   "s:open/downloads", "s:open/friends", "s:open/games",
   "s:open/largegameslist", "s:open/minigameslist",
   "s:open/screenshots/%a", "s:open/servers", "s:open/tools",
   "s:settings/account", "s:settings/downloads", "s:settings/friends",
   "s:settings/ingame", "s:settings/interface", "s:settings/voice",
   "s:store", "s:store/%a", "s:uninstall/%a", "s:UpdateFirmware",
   "s:updatenews/%a", "s:url/CommunityFriendsThatPlay/%a",
   "s:url/CommunityHome", "s:url/CommunityInventory", "s:url/FamilySharing",
   "s:url/GameHub/%a", "s:url/LegalInformation", "s:url/MyHelpRequests",
   "s:url/ParentalSetup", "s:url/PrivacyPolicy", "s:url/SSA",
   "s:url/SteamIDEditPage", "s:url/SteamIDFriendsPage",
   "s:url/SteamIDMyProfile", "s:url/SteamIDPage/%f", "s:url/SteamWorkshop",
   "s:url/SteamWorkshopPage/%a", "s:url/StoreAccount", "s:url/StoreCart",
   "s:validate/%a", "s:viewfriendsgame/%f", "w:help.steampowered.com",
   "w:steamcommunity.com/discussions", "w:steamcommunity.com/market",
   "w:store.steampowered.com/account/cookiepreferences",
   "w:store.steampowered.com/account/preferences",
   "w:store.steampowered.com/charts", "w:store.steampowered.com/explore",
   "w:store.steampowered.com/news", "w:store.steampowered.com/replay",
   "w:store.steampowered.com/steamaccount/addfunds",
   "w:store.steampowered.com/wishlist"]

/-- Embedding of the `sanitise_filename` closure: replaces the characters
Windows filenames reject with dashes. -/
def sanitise_filename (filename : String) : String :=
  String.mk (filename.toList.map (fun c =>
    if c = '<' ∨ c = '>' ∨ c = ':' ∨ c = '"' ∨ c = '/' ∨ c = '\\' ∨
        c = '|' ∨ c = '?' ∨ c = '*' then '-' else c))

/-- The resolved keyword preferences (all five are read at the start of
`query_cache`, raising `KeyError` when missing). -/
structure Keywords where
  kwAll : String
  kwApps : String
  kwFriends : String
  kwNavs : String
  kwExt : String

/-- The `%u`-guard of the navs loop body: reads `STEAM_USERNAME` only when
the template mentions `%u` (Python's short-circuit) and reports whether it
is empty. -/
def navUserEmpty (preferences : List (String × String)) (name : String) :
    Except String Bool :=
  if pyContains name "%u" then do
    let username ← prefGet preferences "STEAM_USERNAME"
    pure (username == "")
  else pure false

/-- The per-template display-name / description / icon-path resolution of
the navs loop body (`%a`, `%f`, `%u` substitution and the related skip
guards); `Option.none` is a `continue`. -/
def navResolve (env : QueryEnv) (preferences : List (String × String))
    (cache : List (String × PyVal)) (name nav_display_name : String)
    (description : Option String) (idStr icon_path : String) :
    Except String (Option (String × Option String × String)) := do
  if pyContains name "%a" then do
    let rec_ ←
      match pyGet cache "apps" with
      | some (PyVal.dict apps) =>
        match pyGet apps idStr with
        | some (PyVal.dict r) => Except.ok r
        | some _ =>
          Except.error ("AttributeError: app record is not a dictionary")
        | Option.none => Except.error ("KeyError: app id")
      | some _ => Except.error ("AttributeError: apps is not a dictionary")
      | Option.none => Except.error ("KeyError: apps")
    let show_uninstalled ← prefGet preferences "SHOW_UNINSTALLED"
    if show_uninstalled = "false" ∧ ¬ pyHasKey rec_ "location" ∧
        ¬ pyHasKey rec_ "size" then
      pure Option.none
    else do
      let app_name :=
        match pyGet rec_ "name" with
        | some v => pyStr v
        | Option.none => idStr
      pure (some (pyReplace nav_display_name "%a" app_name,
        description.map (fun d => pyReplace d "%a" app_name),
        env.extensionPath ++ "images" ++ env.dirSep ++ "apps" ++
          env.dirSep ++ idStr ++ ".jpg"))
  else if pyContains name "%f" then do
    let friend_action ← prefGet preferences "FRIEND_ACTION"
    let skip_repeated :=
      pyStartsWith name "url/SteamIDPage/" ∧ friend_action = "profile"
    if skip_repeated then pure Option.none
    else do
      let rec_ ←
        match pyGet cache "friends" with
        | some (PyVal.dict friends) =>
          match pyGet friends idStr with
          | some (PyVal.dict r) => Except.ok r
          | some _ =>
            Except.error ("AttributeError: friend record is not a dictionary")
          | Option.none => Except.error ("KeyError: friend id")
        | some _ =>
          Except.error ("AttributeError: friends is not a dictionary")
        | Option.none => Except.error ("KeyError: friends")
      let friend_name :=
        match pyGet rec_ "name" with
        | some v => pyStr v
        | Option.none => idStr
      pure (some (pyReplace nav_display_name "%f" friend_name,
        description.map (fun d => pyReplace d "%f" friend_name),
        env.extensionPath ++ "images" ++ env.dirSep ++ "friends" ++
          env.dirSep ++ idStr ++ ".jpg"))
  else if pyContains name "%u" then do
    let username ← prefGet preferences "STEAM_USERNAME"
    pure (some (pyReplace nav_display_name "%u" username,
      description.map (fun d => pyReplace d "%u" username),
      icon_path))
  else
    pure (some (nav_display_name, description, icon_path))

/-- One navigation item of the navs loop (the body of `for id in ids`),
or `Option.none` when one of the `continue` guards fires. -/
def navIdItem (env : QueryEnv) (lang : List (String × List (String × String)))
    (preferences : List (String × String)) (cache : List (String × PyVal))
    (app_blacklist friend_blacklist : List Int) (keyword : String)
    (kws : Keywords) (name : String) (nav_display_name : String)
    (description : Option String) (id : Option Int) (st : Option Int × Int) :
    Except String (Option SteamExtensionItem × (Option Int × Int)) := do
  let blacklisted : Bool :=
    (pyContains name "%a" &&
      (match id with
       | some n => app_blacklist.contains n
       | Option.none => false)) ||
    (pyContains name "%f" &&
      (match id with
       | some n => friend_blacklist.contains n
       | Option.none => false))
  if blacklisted then Except.ok (Option.none, st)
  else do
    let userEmpty : Bool ← navUserEmpty preferences name
    if userEmpty then Except.ok (Option.none, st)
    else do
      let idStr := match id with
        | some n => toString n
        | Option.none => "None"
      let (id_name, skip_dependent) :=
        let step := fun (acc : String × Bool) (modifier : String) =>
          if pyContains name modifier then
            if keyword = kws.kwNavs then (acc.1, true)
            else (pyReplace name modifier idStr, acc.2)
          else acc
        step (step (name, false) "%a") "%f"
      if skip_dependent then Except.ok (Option.none, st)
      else do
        let icon_path := env.extensionPath ++ "images" ++ env.dirSep ++
          "navs" ++ env.dirSep ++ sanitise_filename (name ++ ".png")
        let step2 ← navResolve env preferences cache name nav_display_name
          description idStr icon_path
        match step2 with
        | Option.none => Except.ok (Option.none, st)
        | some (id_display_name, id_description, icon_path2) => do
          let icon :=
            if env.isfile icon_path2 then some icon_path2 else Option.none
          let (st2, lt) :=
            match pyGet cache "navs" with
            | some (PyVal.dict navs) =>
              match pyGet navs id_name with
              | some (PyVal.dict navRec) => compare_launches env.offset st navRec
              | _ => (st, (Option.none, 0))
            | _ => (st, (Option.none, 0))
          Except.ok (some
            { type := "nav", id := id, name := some id_name,
              display_name := some id_display_name,
              description := id_description, icon := itemIcon env icon,
              launched := lt.1, times := lt.2 }, st2)

/-- The inner `for id in ids` loop of the navs loop: one `navIdItem` per
expansion id, threading the most-recent-launch state. -/
def navIdsLoop (env : QueryEnv) (lang : List (String × List (String × String)))
    (preferences : List (String × String)) (cache : List (String × PyVal))
    (app_blacklist friend_blacklist : List Int) (keyword : String)
    (kws : Keywords) (name : String) (nav_display_name : String)
    (description : Option String) (ids : List (Option Int))
    (st : Option Int × Int) :
    Except String (List SteamExtensionItem × (Option Int × Int)) :=
  match ids with
  | [] => Except.ok ([], st)
  | id :: rest => do
    let (itemOpt, st2) ← navIdItem env lang preferences cache
      app_blacklist friend_blacklist keyword kws name nav_display_name
      description id st
    let (l, stf) ← navIdsLoop env lang preferences cache app_blacklist
      friend_blacklist keyword kws name nav_display_name description rest st2
    match itemOpt with
    | some item => Except.ok (item :: l, stf)
    | Option.none => Except.ok (l, stf)

/-- The expansion ids of one navigation template: `Option.none` models the
`continue` that skips the template entirely, `some ids` the list the
`for id in ids` loop runs over (a single `None` id for a non-template
navigation). -/
def navIds (env : QueryEnv) (preferences : List (String × String))
    (cache : List (String × PyVal)) (keyword : String) (kws : Keywords)
    (name : String) : Except String (Option (List (Option Int))) :=
  if pyContains name "%a" ∧ (keyword = kws.kwAll ∨ keyword = kws.kwApps) then do
      let show_dependent ← prefGet preferences "SHOW_DEPENDENT"
      if show_dependent ≠ "all" ∧ show_dependent ≠ "onlyApps" then
        pure Option.none
      else
        match pyGet cache "apps" with
        | some (PyVal.dict apps) =>
          match pyIntList (pyKeys apps) with
          | some l => pure (some (l.map some))
          | Option.none => Except.error ("ValueError: invalid app id key")
        | _ => pure Option.none
    else if pyContains name "%f" ∧
        (keyword = kws.kwAll ∨ keyword = kws.kwFriends) then do
      let show_dependent ← prefGet preferences "SHOW_DEPENDENT"
      if show_dependent ≠ "all" ∧ show_dependent ≠ "onlyFriends" then
        pure Option.none
      else
        match pyGet cache "friends" with
        | some (PyVal.dict friends) =>
          match pyIntList (pyKeys friends) with
          | some l => pure (some (l.map some))
          | Option.none => Except.error ("ValueError: invalid friend id key")
        | _ => pure Option.none
  else if keyword = kws.kwApps ∨ keyword = kws.kwFriends then
    pure Option.none
  else
    pure (some [Option.none])

/-- The per-template body of the navs loop of `query_cache`: resolves the
display name and (strict) description from the language table, expands
`%a` / `%f` templates over the cached apps or friends (subject to the
`SHOW_DEPENDENT` preference; an id key that fails to parse as an integer
is an uncaught `ValueError`), and builds one item per expansion id. -/
def navItemsForName (env : QueryEnv)
    (lang : List (String × List (String × String)))
    (preferences : List (String × String)) (cache : List (String × PyVal))
    (app_blacklist friend_blacklist : List Int) (keyword : String)
    (kws : Keywords) (name : String) (st : Option Int × Int) :
    Except String (List SteamExtensionItem × (Option Int × Int)) := do
  let language ← prefGet preferences "LANGUAGE"
  let nav_display_name := get_lang_string lang language name
  let description := get_lang_string_strict lang language (name ++ "%d")
  let idsRes ← navIds env preferences cache keyword kws name
  match idsRes with
  | Option.none => Except.ok ([], st)
  | some ids =>
    navIdsLoop env lang preferences cache app_blacklist friend_blacklist
      keyword kws name nav_display_name description ids st

/-- The navs loop of `query_cache` over all templates. -/
def navsLoop (env : QueryEnv) (lang : List (String × List (String × String)))
    (preferences : List (String × String)) (cache : List (String × PyVal))
    (app_blacklist friend_blacklist : List Int) (keyword : String)
    (kws : Keywords) (names : List String) (st : Option Int × Int) :
    Except String (List SteamExtensionItem × (Option Int × Int)) :=
  match names with
  | [] => Except.ok ([], st)
  | name :: rest => do
    let (l1, st2) ← navItemsForName env lang preferences cache app_blacklist
      friend_blacklist keyword kws name st
    let (l2, stf) ← navsLoop env lang preferences cache app_blacklist
      friend_blacklist keyword kws rest st2
    Except.ok (l1 ++ l2, stf)

/-- The extension-action items of `query_cache`. -/
def actionItems (env : QueryEnv)
    (lang : List (String × List (String × String)))
    (preferences : List (String × String)) :
    Except String (List SteamExtensionItem) := do
  let language ← prefGet preferences "LANGUAGE"
  pure ((["update_cache", "clear_cache", "clear_images",
      "rebuild_cache"] : List String).map (fun name =>
    { type := "action", name := some name,
      display_name := some (get_lang_string lang language name),
      description := some (get_lang_string lang language (name ++ "%d")),
      icon := itemIcon env Option.none }))

/-- The combined lowercased name-and-description text the search filter
matches tokens against. -/
def itemText (env : QueryEnv) (lang : List (String × List (String × String)))
    (preferences : List (String × String)) (item : SteamExtensionItem) :
    Except String String := do
  let n ← get_name lang preferences item
  let d ← get_description env preferences item
  pure (pyLower n ++ " " ++ pyLower d)

/-- The search filter of `query_cache`: keeps the items whose combined
name and description contain every search token as a substring. -/
def filterMatching (env : QueryEnv)
    (lang : List (String × List (String × String)))
    (preferences : List (String × String)) (tokens : List String)
    (items : List SteamExtensionItem) :
    Except String (List SteamExtensionItem) :=
  match items with
  | [] => Except.ok []
  | item :: rest => do
    let text ← itemText env lang preferences item
    let r ← filterMatching env lang preferences tokens rest
    pure (if tokens.all (fun w => pyContains text w) then item :: r else r)

/-- The apps section of `query_cache`: the Steam-app loop over
`cache["apps"]` followed by the non-Steam loop over `cache["nonSteam"]`. -/
def appSection (env : QueryEnv)
    (lang : List (String × List (String × String)))
    (preferences : List (String × String)) (app_blacklist : List Int)
    (cache : List (String × PyVal)) (st0 : Option Int × Int) :
    Except String (List SteamExtensionItem × (Option Int × Int)) := do
  let (a, st) ←
    (match pyGet cache "apps" with
     | some (PyVal.dict apps) =>
       appsLoop env lang preferences app_blacklist apps st0
     | _ => Except.ok ([], st0))
  let (b, st2) ←
    (match pyGet cache "nonSteam" with
     | some (PyVal.dict ns) =>
       nonSteamLoop env lang preferences app_blacklist ns st
     | _ => Except.ok ([], st))
  Except.ok (a ++ b, st2)

/-- The friends section of `query_cache`: the friend loop over
`cache["friends"]`. -/
def friendSection (env : QueryEnv) (preferences : List (String × String))
    (cache : List (String × PyVal)) (friend_blacklist : List Int)
    (st1 : Option Int × Int) :
    Except String (List SteamExtensionItem × (Option Int × Int)) :=
  match pyGet cache "friends" with
  | some (PyVal.dict fr) =>
    friendsLoop env preferences cache friend_blacklist fr st1
  | _ => Except.ok ([], st1)

/-- The navigations section of `query_cache`: ensures `cache["navs"]` is a
dict, then runs the navs loop over every template. -/
def navSection (env : QueryEnv)
    (lang : List (String × List (String × String)))
    (preferences : List (String × String)) (cache : List (String × PyVal))
    (app_blacklist friend_blacklist : List Int) (keyword : String)
    (kws : Keywords) (st2 : Option Int × Int) :
    Except String (List (String × PyVal) × List SteamExtensionItem) := do
  let cache :=
    match pyGet cache "navs" with
    | some (PyVal.dict _) => cache
    | _ => pySet cache "navs" (PyVal.dict [])
  let (l, _) ← navsLoop env lang preferences cache app_blacklist
    friend_blacklist keyword kws STEAM_NAVIGATIONS st2
  Except.ok (cache, l)

/-- Embedding of `query.py::query_cache`.  The cache (normally loaded from
disk) and the language table (normally read from `lang.csv`) are
parameters; the result is the ordered item list the extension displays.
The float-weighted ranking of a non-empty search is `env.placementSort`
(see `QueryEnv`). -/
def query_cache (env : QueryEnv) (lang : List (String × List (String × String)))
    (keyword : String) (preferences : List (String × String))
    (search : Option String) (cache : List (String × PyVal)) :
    Except String (List SteamExtensionItem) := do
  if env.requiredPrefs.any (fun k => !(pyHasKey preferences k)) then
    Except.error ("ValueError: missing required preference")
  else do
    let kwAll ← prefGet preferences "KEYWORD"
    let kwApps ← prefGet preferences "KEYWORD_APPS"
    let kwFriends ← prefGet preferences "KEYWORD_FRIENDS"
    let kwNavs ← prefGet preferences "KEYWORD_NAVIGATIONS"
    let kwExt ← prefGet preferences "KEYWORD_EXTENSION"
    let kws : Keywords := ⟨kwAll, kwApps, kwFriends, kwNavs, kwExt⟩
    let (keyword, search) :=
      if keyword ≠ kwAll ∧ keyword ≠ kwApps ∧ keyword ≠ kwFriends ∧
          keyword ≠ kwNavs ∧ keyword ≠ kwExt then
        ("", Option.none)
      else (keyword, search)
    let app_blacklist ← get_blacklist "app" preferences
    let friend_blacklist ← get_blacklist "friend" preferences
    let st0 : Option Int × Int := (Option.none, 0)
    let (appItems, st1) ←
      (if keyword = kwAll ∨ keyword = kwApps then
        appSection env lang preferences app_blacklist cache st0
      else Except.ok ([], st0))
    let (friendItems, st2) ←
      (if keyword = kwAll ∨ keyword = kwFriends then
        friendSection env preferences cache friend_blacklist st1
      else Except.ok ([], st1))
    let (cache, navItems) ←
      (if keyword = kwAll ∨ keyword = kwApps ∨ keyword = kwFriends ∨
          keyword = kwNavs then
        navSection env lang preferences cache app_blacklist friend_blacklist
          keyword kws st2
      else Except.ok (cache, []))
    let actItems ←
      (if keyword = kwAll ∨ keyword = kwExt then
        actionItems env lang preferences
      else Except.ok [])
    let items := appItems ++ friendItems ++ navItems ++ actItems
    let searchText :=
      match search with
      | Option.none => ""
      | some s => pyLower (pyStrip s)
    let items ←
      (if searchText = "" then Except.ok (emptySortItems items)
      else
        filterMatching env lang preferences (pySplitWs searchText) items >>=
          fun filtered => Except.ok (env.placementSort filtered))
    let max_items_str ← prefGet preferences "MAX_ITEMS"
    let max_items : Int :=
      match pyIntOfString max_items_str with
      | Option.none => 10
      | some v => if v ≤ 0 then 10 else v
    let items := items.take (min max_items.toNat items.length)
    if items.isEmpty then do
      let language ← prefGet preferences "LANGUAGE"
      let noResults : SteamExtensionItem :=
        { type := "action", name := some "no_results",
          display_name := some (get_lang_string lang language "no_results"),
          description := some (get_lang_string lang language "no_results%d"),
          icon := itemIcon env Option.none }
      Except.ok [noResults]
    else Except.ok items

/-! ## Fixtures and specification-side definitions used by the claims -/

/-- Maps a run of the decoder loop to the failure kind it produced: each of
the three raise sites has a distinct message, and a successful run that
built no top-level key becomes the fourth kind (which `_vdf_to_dict`
raises after the loop). -/
def vdfOutcome : Except String (List (String × PyVal)) → Option VdfErrKind
  | Except.ok d => if d.isEmpty then some VdfErrKind.noTop else Option.none
  | Except.error e =>
    if e = "KeyError: additional top-level key" then some VdfErrKind.extraTop
    else if e = "KeyError: top-level key with value" then some VdfErrKind.kvNoBlock
    else if e = "ValueError: extra closing brace" then some VdfErrKind.closeNoBlock
    else some VdfErrKind.noTop

/-- Fixture item for the empty-search ordering claim: never launched,
playtime 0, name `aaa`. -/
def itemAaa : SteamExtensionItem :=
  { type := "app", name := some "aaa", playtime := 0 }

/-- Fixture item for the empty-search ordering claim: never launched,
playtime 10, name `zzz`. -/
def itemZzz : SteamExtensionItem :=
  { type := "app", name := some "zzz", playtime := 10 }

/-- Fixture environment for the concrete query runs: no icon files exist
and the search-ranking sort is the identity (the runs below have at most
one item to rank, where every permutation is the identity). -/
def fixtureEnv : QueryEnv :=
  { extensionPath := "/ext/", dirSep := "/", isfile := fun _ => false,
    homePath := "/home/u", offset := 0, requiredPrefs := [],
    placementSort := id }

/-- Fixture preferences for the concrete query runs. -/
def fixturePrefs : List (String × String) :=
  [("KEYWORD", "st"), ("KEYWORD_APPS", "sta"), ("KEYWORD_FRIENDS", "stf"),
   ("KEYWORD_NAVIGATIONS", "stn"), ("KEYWORD_EXTENSION", "ste"),
   ("APP_BLACKLIST", ""), ("FRIEND_BLACKLIST", ""), ("LANGUAGE", "en-GB"),
   ("SHOW_UNINSTALLED", "true"), ("SHOW_DEPENDENT", "none"),
   ("FRIEND_ACTION", "chat"), ("STEAM_USERNAME", "u"), ("MAX_ITEMS", "10"),
   ("SHOW_REAL", "all")]

/-- Fixture cache holding one installed Steam app named
`Grand Theft Auto V`. -/
def fixtureCache : List (String × PyVal) :=
  [("apps", PyVal.dict [("271590", PyVal.dict
    [("name", PyVal.str ("Grand Theft Auto V")), ("size", PyVal.int 500)])])]

/-- Type-and-name projection of a query result, used to state the
concrete query facts compactly. -/
def queryShape (r : Except String (List SteamExtensionItem)) :
    Except String (List (String × Option String)) :=
  r.map (fun l => l.map (fun i => (i.type, i.name)))

/-- The `no_results` action item a fixture query returns when nothing
matches (the language table is empty, so the language strings fall back to
their keys). -/
def fixtureNoResults : SteamExtensionItem :=
  { type := "action", name := some ("no_results"),
    display_name := some ("no_results"),
    description := some ("no_results%d"),
    icon := itemIcon fixtureEnv Option.none }

/-! # Theorems -/

theorem pyGet_pySet {κ ν : Type} [DecidableEq κ] (d : List (κ × ν)) (k k2 : κ) (v : ν) :
    pyGet (pySet d k v) k2 = if k = k2 then some v else pyGet d k2 := by
  induction d with
  | nil => simp [pySet, pyGet]
  | cons p t ih =>
    obtain ⟨k', v'⟩ := p
    by_cases h : k' = k
    · subst h
      simp only [pySet, if_pos rfl, pyGet]
      by_cases h2 : k' = k2
      · simp [h2]
      · simp [h2]
    · simp only [pySet, if_neg h, pyGet]
      by_cases h2 : k' = k2
      · have hne : ¬ k = k2 := fun hh => h (hh ▸ h2.symm ▸ rfl)
        simp [h2, hne]
      · simp [h2, ih]

theorem pyIntListParse_none (parts : List String) (p : String)
    (hmem : p ∈ parts) (hp : pyIntOfString (pyStrip p) = Option.none) :
    pyIntListParse parts = Option.none := by
  induction parts with
  | nil => cases hmem
  | cons x t ih =>
    rcases List.mem_cons.mp hmem with rfl | hmem2
    · simp [pyIntListParse, hp]
    · cases hfx : pyIntOfString (pyStrip x)
      · simp [pyIntListParse, hfx]
      · simp [pyIntListParse, hfx, ih hmem2]

/-- Claim C10 -/
theorem get_blacklist_malformed_entry_disables (preferences : List (String × String))
    (raw : String) (h1 : pyGet preferences ("APP_BLACKLIST") = some raw)
    (h2 : pyStrip raw ≠ "")
    (h3 : ∃ part ∈ pySplitOn (pyStrip raw) ',',
      pyIntOfString (pyStrip part) = Option.none) :
    get_blacklist ("app") preferences = Except.ok [] := by
  have hkey : pyUpper ("app") ++ "_BLACKLIST" = "APP_BLACKLIST" := by decide
  obtain ⟨part, hmem, hpart⟩ := h3
  have hmap := pyIntListParse_none (pySplitOn (pyStrip raw) ',') part hmem hpart
  simp only [get_blacklist, hkey, h1, if_pos h2, hmap]

theorem get_blacklist_malformed_entry_disables_witness :
    get_blacklist ("app") [("APP_BLACKLIST", "123,abc")] = Except.ok [] :=
  get_blacklist_malformed_entry_disables _ "123,abc" rfl (by decide)
    ⟨"abc", by decide, by decide⟩

/-- Claim C4 (amended) -/
theorem build_cache_refreshes_iff (cache : List (String × PyVal)) (force : Bool)
    (interval now : Int) (key : String) :
    build_cache_refreshes cache force interval now key = true ↔
      category_refresh_spec cache force interval now key := by
  unfold build_cache_refreshes category_refresh_spec compare_last_updated
  cases hext : pyGet cache "extension" with
  | none => simp [hext]
  | some v =>
    cases v with
    | dict ext =>
      cases hkey : pyGet ext key with
      | none => cases force <;> simp [hext, hkey]
      | some w => cases force <;> simp [hext, hkey]
    | none => simp [hext]
    | bool b => simp [hext]
    | int n => simp [hext]
    | str s => simp [hext]
    | dt t => simp [hext]

/-- Counterexample to claim C4 as stated: with lastRefresh 1000000 and a
one-hour interval, a non-forced build at exactly lastRefresh + interval
satisfies the claimed condition now >= lastRefresh + interval, yet the code
does not refresh the category (its comparison is strict). -/
theorem build_cache_refreshes_boundary_counterexample :
    build_cache_refreshes [("extension", PyVal.dict [("files", PyVal.int 1000000)])]
        false 3600 1003600 ("files") = false ∧
      (1003600 : Int) ≥ 1000000 + 3600 ∧ (false : Bool) ≠ true := by
  refine ⟨rfl, by decide, by decide⟩

theorem appField_owned_step (apps : List (String × PyVal)) (app_id : Int)
    (info : OwnedSteamApp) (id field : String)
    (hn : field ≠ "name") (hp : field ≠ "playtime") :
    appField
      (let r := ensure_dict_key_is_dict apps (toString app_id)
       pySet r.2 (toString app_id)
         (PyVal.dict (pySet (pySet r.1.1 "name" (PyVal.str info.name))
           "playtime" (PyVal.int info.playtime)))) id field =
    appField apps id field := by
  by_cases hid : toString app_id = id
  · subst hid
    have hn' : ¬ ("name" = field) := fun h => hn h.symm
    have hp' : ¬ ("playtime" = field) := fun h => hp h.symm
    unfold ensure_dict_key_is_dict appField
    cases hv : pyGet apps (toString app_id) with
    | none => simp [pyGet_pySet, hn', hp', pyGet, hv]
    | some w => cases w <;> simp [pyGet_pySet, hn', hp', pyGet, hv]
  · unfold ensure_dict_key_is_dict appField
    cases hv : pyGet apps (toString app_id) with
    | none => simp [pyGet_pySet, hid, hv]
    | some w => cases w <;> simp [pyGet_pySet, hid, hv]

theorem appField_owned_fold (owned : List (Int × OwnedSteamApp))
    (apps : List (String × PyVal)) (icons : List (Int × String))
    (id field : String) (hn : field ≠ "name") (hp : field ≠ "playtime") :
    appField
      (owned.foldl
        (fun st p =>
          let (app_id, info) := p
          let ((cache_app, _), apps1) := ensure_dict_key_is_dict st.1 (toString app_id)
          let cache_app := pySet cache_app "name" (PyVal.str info.name)
          let cache_app := pySet cache_app "playtime" (PyVal.int info.playtime)
          (pySet apps1 (toString app_id) (PyVal.dict cache_app),
           match info.icon_hash with
           | some h => st.2 ++ [(app_id, h)]
           | Option.none => st.2))
        (apps, icons)).1 id field =
    appField apps id field := by
  induction owned generalizing apps icons with
  | nil => rfl
  | cons p t ih =>
    obtain ⟨app_id, info⟩ := p
    rw [List.foldl_cons]
    rw [ih]
    exact appField_owned_step apps app_id info id field hn hp

theorem size_removal_fold (installed : List Int) (keys : List String)
    (acc : List (String × PyVal)) (id : String)
    (h : appField
      (keys.foldl
        (fun acc app_id =>
          match pyIntOfString app_id with
          | Option.none => acc
          | some n =>
            if installed.contains n then acc
            else
              match pyGet acc app_id with
              | some (PyVal.dict r) =>
                if pyHasKey r "size" then
                  pySet acc app_id (PyVal.dict (pyDel r "size"))
                else acc
              | _ => acc)
        acc) id ("size") = Option.none) :
    appField acc id ("size") = Option.none ∨
      ∃ n, pyIntOfString id = some n ∧ installed.contains n = false := by
  induction keys generalizing acc with
  | nil => exact Or.inl h
  | cons k t ih =>
    rw [List.foldl_cons] at h
    rcases ih _ h with hmid | hcause
    · split at hmid
      · exact Or.inl hmid
      · rename_i n hparse
        split at hmid
        · exact Or.inl hmid
        · rename_i hin
          split at hmid
          · rename_i r hv
            split at hmid
            · by_cases hid : k = id
              · subst hid
                refine Or.inr ⟨n, hparse, ?_⟩
                cases hcontains : installed.contains n
                · rfl
                · exact absurd hcontains hin
              · unfold appField at hmid
                rw [pyGet_pySet, if_neg hid] at hmid
                exact Or.inl hmid
            · exact Or.inl hmid
          · exact Or.inl hmid
    · exact Or.inr hcause

/-- Claim C7 -/
theorem owned_pass_never_strips_install_fields
    (apps : List (String × PyVal)) (owned : List (Int × OwnedSteamApp))
    (installed : List Int) (id : String) :
    appField (owned_apps_pass apps owned).1 id ("dir") = appField apps id ("dir") ∧
    appField (owned_apps_pass apps owned).1 id ("size") = appField apps id ("size") ∧
    ((appField apps id ("size")).isSome = true →
      (appField (size_removal_pass apps installed) id ("size")).isSome = false →
      ∃ n, pyIntOfString id = some n ∧ installed.contains n = false) := by
  refine ⟨?_, ?_, ?_⟩
  · unfold owned_apps_pass
    exact appField_owned_fold owned apps [] id ("dir") (by decide) (by decide)
  · unfold owned_apps_pass
    exact appField_owned_fold owned apps [] id ("size") (by decide) (by decide)
  · intro hpresent hafter
    have hnone : appField (size_removal_pass apps installed) id ("size") = Option.none := by
      cases hx : appField (size_removal_pass apps installed) id ("size") with
      | none => rfl
      | some v => rw [hx] at hafter; cases hafter
    unfold size_removal_pass at hnone
    rcases size_removal_fold installed (pyKeys apps) apps id hnone with hnone2 | hcause
    · rw [hnone2] at hpresent; cases hpresent
    · exact hcause

theorem owned_pass_never_strips_install_fields_witness :
    appField
      (owned_apps_pass [("400", PyVal.dict [("dir", PyVal.str ("/x")), ("size", PyVal.int 5)])]
        [(400, ⟨"Portal", 10, Option.none⟩)]).1 ("400") ("dir") =
      some (PyVal.str ("/x")) ∧
    (∃ n, pyIntOfString ("400") = some n ∧ ([] : List Int).contains n = false) := by
  have h := owned_pass_never_strips_install_fields
    [("400", PyVal.dict [("dir", PyVal.str ("/x")), ("size", PyVal.int 5)])]
    [(400, ⟨"Portal", 10, Option.none⟩)] [] ("400")
  exact ⟨h.1.trans (by rfl), h.2.2 (by rfl) (by rfl)⟩

theorem pySet_ne_nil {κ ν : Type} [DecidableEq κ] (d : List (κ × ν)) (k : κ) (v : ν) :
    pySet d k v ≠ [] := by
  cases d with
  | nil => simp [pySet]
  | cons p t =>
    obtain ⟨k', v'⟩ := p
    by_cases h : k' = k <;> simp [pySet, h]

theorem setAtPath_isSome (path : List String) (d : List (String × PyVal))
    (key : String) (v : PyVal) (hval : pathValid d path) :
    (setAtPath d path key v).isSome := by
  induction path generalizing d with
  | nil => simp [setAtPath]
  | cons p rest ih =>
    obtain ⟨inner, hget, hvalInner⟩ := hval
    simp only [setAtPath, hget]
    have := ih inner hvalInner
    cases hx : setAtPath inner rest key v with
    | none => rw [hx] at this; cases this
    | some inner2 => simp

theorem setAtPath_ne_nil (path : List String) (d : List (String × PyVal))
    (key : String) (v : PyVal) (d2 : List (String × PyVal))
    (hval : pathValid d path)
    (h : setAtPath d path key v = some d2) : d2 ≠ [] := by
  cases path with
  | nil =>
    simp only [setAtPath, Option.some.injEq] at h
    exact h ▸ pySet_ne_nil d key v
  | cons p rest =>
    obtain ⟨inner, hget, _⟩ := hval
    simp only [setAtPath, hget] at h
    cases hx : setAtPath inner rest key v with
    | none => rw [hx] at h; cases h
    | some inner2 =>
      rw [hx] at h
      have h2 : pySet d p (PyVal.dict inner2) = d2 := by simpa using h
      exact h2 ▸ pySet_ne_nil d p (PyVal.dict inner2)

theorem pathValid_after_set (path : List String) (d : List (String × PyVal))
    (key : String) (v : PyVal) (d2 : List (String × PyVal))
    (hval : pathValid d path) (h : setAtPath d path key v = some d2) :
    pathValid d2 path := by
  induction path generalizing d d2 with
  | nil => trivial
  | cons p rest ih =>
    obtain ⟨inner, hget, hvalInner⟩ := hval
    simp only [setAtPath, hget] at h
    cases hx : setAtPath inner rest key v with
    | none => rw [hx] at h; cases h
    | some inner2 =>
      rw [hx] at h
      have h2 : pySet d p (PyVal.dict inner2) = d2 := by simpa using h
      refine ⟨inner2, ?_, ih inner inner2 hvalInner hx⟩
      rw [← h2, pyGet_pySet, if_pos rfl]

theorem pathValid_after_set_dict (path : List String) (d : List (String × PyVal))
    (key : String) (inner0 : List (String × PyVal)) (d2 : List (String × PyVal))
    (hval : pathValid d path)
    (h : setAtPath d path key (PyVal.dict inner0) = some d2) :
    pathValid d2 (path ++ [key]) := by
  induction path generalizing d d2 with
  | nil =>
    simp only [setAtPath, Option.some.injEq] at h
    refine ⟨inner0, ?_, trivial⟩
    rw [← h, pyGet_pySet, if_pos rfl]
  | cons p rest ih =>
    obtain ⟨inner, hget, hvalInner⟩ := hval
    simp only [setAtPath, hget] at h
    cases hx : setAtPath inner rest key (PyVal.dict inner0) with
    | none => rw [hx] at h; cases h
    | some inner2 =>
      rw [hx] at h
      have h2 : pySet d p (PyVal.dict inner2) = d2 := by simpa using h
      refine ⟨inner2, ?_, ih inner inner2 hvalInner hx⟩
      rw [← h2, pyGet_pySet, if_pos rfl]

theorem pathValid_dropLast (path : List String) (d : List (String × PyVal))
    (hval : pathValid d path) : pathValid d path.dropLast := by
  induction path generalizing d with
  | nil => trivial
  | cons p rest ih =>
    obtain ⟨inner, hget, hvalInner⟩ := hval
    cases rest with
    | nil => trivial
    | cons q rest2 =>
      exact ⟨inner, hget, ih inner hvalInner⟩

theorem ne_nil_isEmpty {α : Type} (l : List α) (h : l ≠ []) : l.isEmpty = false := by
  cases l with
  | nil => exact absurd rfl h
  | cons x t => rfl

theorem vdfLoop_abs (lines : List String) (d : List (String × PyVal))
    (levels : List String) (hval : pathValid d levels)
    (hne : levels ≠ [] → d ≠ []) :
    vdfOutcome (vdfLoop lines d levels) =
      vdfAbstractErr (lines.map classifyLine) levels.length (!d.isEmpty) := by
  induction lines generalizing d levels with
  | nil =>
    simp only [vdfLoop, List.map_nil, vdfAbstractErr, vdfOutcome]
    cases he : d.isEmpty <;> simp
  | cons line rest ih =>
    cases ht : classifyLine line with
    | push name =>
      by_cases hlev : levels = []
      · subst hlev
        cases he : d.isEmpty with
        | true =>
          have hd : d = [] := by
            cases d with
            | nil => rfl
            | cons x t => cases he
          subst hd
          have hval2 : pathValid (pySet [] name (PyVal.dict [])) [name] :=
            ⟨[], by simp [pySet, pyGet], trivial⟩
          have hne2 : ([name] : List String) ≠ [] →
              pySet ([] : List (String × PyVal)) name (PyVal.dict []) ≠ [] :=
            fun _ => pySet_ne_nil [] name (PyVal.dict [])
          simp only [vdfLoop, ht, List.map_cons, vdfAbstractErr]
          exact ih (pySet [] name (PyVal.dict [])) [name] hval2 hne2
        | false =>
          simp only [vdfLoop, ht, List.map_cons, vdfAbstractErr, he]
          rfl
      · have hdne : d ≠ [] := hne hlev
        have hlen : levels.length ≠ 0 := fun h => hlev (List.length_eq_zero.mp h)
        cases hset : setAtPath d levels name (PyVal.dict []) with
        | none =>
          have := setAtPath_isSome levels d name (PyVal.dict []) hval
          rw [hset] at this; cases this
        | some d2 =>
          have h2 : d2 ≠ [] := setAtPath_ne_nil levels d name (PyVal.dict []) d2 hval hset
          simp only [vdfLoop, ht, List.map_cons, vdfAbstractErr]
          simp only [if_neg hlev, if_neg hlen, hset]
          rw [ih d2 (levels ++ [name])
            (pathValid_after_set_dict levels d name [] d2 hval hset)
            (fun _ => h2)]
          rw [ne_nil_isEmpty d2 h2, ne_nil_isEmpty d hdne]
          simp
    | kv k v =>
      by_cases hlev : levels = []
      · subst hlev
        simp only [vdfLoop, ht, List.map_cons, vdfAbstractErr]
        rfl
      · have hdne : d ≠ [] := hne hlev
        have hlen : levels.length ≠ 0 := fun h => hlev (List.length_eq_zero.mp h)
        cases hset : setAtPath d levels k (PyVal.str v) with
        | none =>
          have := setAtPath_isSome levels d k (PyVal.str v) hval
          rw [hset] at this; cases this
        | some d2 =>
          have h2 : d2 ≠ [] := setAtPath_ne_nil levels d k (PyVal.str v) d2 hval hset
          simp only [vdfLoop, ht, List.map_cons, vdfAbstractErr]
          simp only [if_neg hlev, if_neg hlen, hset]
          rw [ih d2 levels
            (pathValid_after_set levels d k (PyVal.str v) d2 hval hset)
            (fun _ => h2)]
          rw [ne_nil_isEmpty d2 h2, ne_nil_isEmpty d hdne]
    | close =>
      by_cases hlev : levels = []
      · subst hlev
        simp only [vdfLoop, ht, List.map_cons, vdfAbstractErr]
        rfl
      · have hlen : levels.length ≠ 0 := fun h => hlev (List.length_eq_zero.mp h)
        simp only [vdfLoop, ht, List.map_cons, vdfAbstractErr]
        simp only [if_neg hlev, if_neg hlen]
        rw [ih d levels.dropLast (pathValid_dropLast levels d hval)
          (fun _ => hne hlev)]
        rw [List.length_dropLast]
    | skip =>
      simp only [vdfLoop, ht, List.map_cons, vdfAbstractErr]
      exact ih d levels hval hne

theorem vdfOutcome_error_ne_none (e : String) :
    vdfOutcome (Except.error e) ≠ Option.none := by
  simp only [vdfOutcome]
  split
  · simp
  · split
    · simp
    · split <;> simp

/-- Claim C8 (amended): the manifest decoder fails exactly when the
classified input trips one of the four abstract error conditions (second
top-level key, key-value line with no open block, closing brace with no
open block, or no top-level key at all), and the minimal two-level fixture
parses to the expected tree. -/
theorem vdf_to_dict_error_characterization (vdf_lines : List String) :
    ((∃ e, _vdf_to_dict vdf_lines = Except.error e) ↔
      vdfAbstractErr (vdf_lines.map classifyLine) 0 false ≠ Option.none) ∧
    _vdf_to_dict ["\"AppState\"", "\x7b", "\"name\" \"Foo\"", "\"appid\" \"123\"", "\x7d"] =
      Except.ok [("AppState",
        PyVal.dict [("name", PyVal.str ("Foo")), ("appid", PyVal.str ("123"))])] := by
  constructor
  · have habs := vdfLoop_abs vdf_lines [] [] trivial (fun h => absurd rfl h)
    simp only [List.length_nil, List.isEmpty_nil, Bool.not_true] at habs
    unfold _vdf_to_dict
    cases hrun : vdfLoop vdf_lines [] [] with
    | error e =>
      rw [hrun] at habs
      constructor
      · intro _
        rw [← habs]
        exact vdfOutcome_error_ne_none e
      · intro _
        exact ⟨e, rfl⟩
    | ok d =>
      rw [hrun] at habs
      simp only [vdfOutcome] at habs
      by_cases hd : d.isEmpty
      · rw [if_pos hd] at habs
        simp only [hd, if_true]
        constructor
        · intro _
          rw [← habs]
          simp
        · intro _
          exact ⟨"KeyError: no top-level key found", rfl⟩
      · rw [if_neg hd] at habs
        simp only [hd]
        constructor
        · rintro ⟨e, he⟩
          simp at he
        · intro hne
          exact absurd habs.symm hne
  · rfl

/-- Counterexample to claim C8 as stated: the decoder also fails on an
input with no top-level key at all (the empty line list), which is none of
the three malformed cases the claim lists. -/
theorem vdf_to_dict_counterexample :
    _vdf_to_dict [] = Except.error ("KeyError: no top-level key found") ∧
    vdfAbstractErr (([] : List String).map classifyLine) 0 false = some VdfErrKind.noTop ∧
    VdfErrKind.noTop ≠ VdfErrKind.extraTop ∧
    VdfErrKind.noTop ≠ VdfErrKind.kvNoBlock ∧
    VdfErrKind.noTop ≠ VdfErrKind.closeNoBlock :=
  ⟨rfl, rfl, by decide, by decide, by decide⟩

theorem charListLE_total (a b : List Char) :
    charListLE a b = true ∨ charListLE b a = true := by
  induction a generalizing b with
  | nil => exact Or.inl rfl
  | cons x xs ih =>
    cases b with
    | nil => exact Or.inr rfl
    | cons y ys =>
      by_cases hxy : x < y
      · exact Or.inl (by simp [charListLE, hxy])
      · by_cases hyx : y < x
        · exact Or.inr (by simp [charListLE, hyx, hxy])
        · rcases ih ys with h | h
          · exact Or.inl (by simp [charListLE, hxy, hyx, h])
          · exact Or.inr (by simp [charListLE, hxy, hyx, h])

theorem charListLE_trans (a b c : List Char) (hab : charListLE a b = true)
    (hbc : charListLE b c = true) : charListLE a c = true := by
  induction a generalizing b c with
  | nil => rfl
  | cons x xs ih =>
    cases b with
    | nil => simp [charListLE] at hab
    | cons y ys =>
      cases c with
      | nil => simp [charListLE] at hbc
      | cons z zs =>
        simp only [charListLE] at hab hbc ⊢
        by_cases hxy : x < y
        · by_cases hyz : y < z
          · simp [lt_trans hxy hyz]
          · by_cases hzy : z < y
            · simp [hyz, hzy] at hbc
            · have hyz2 : y = z := le_antisymm (not_lt.mp hzy) (not_lt.mp hyz)
              subst hyz2
              simp [hxy]
        · by_cases hyx : y < x
          · simp [hxy, hyx] at hab
          · have hxy2 : x = y := le_antisymm (not_lt.mp hyx) (not_lt.mp hxy)
            subst hxy2
            simp only [lt_irrefl, if_false] at hab
            by_cases hyz : x < z
            · simp [hyz]
            · by_cases hzy : z < x
              · simp [hyz, hzy] at hbc
              · simp only [hyz, hzy, if_false] at hbc ⊢
                exact ih ys zs hab hbc

theorem sortKeyLE_total (a b : Int × Int × List Char) :
    sortKeyLE a b = true ∨ sortKeyLE b a = true := by
  unfold sortKeyLE
  by_cases h1 : a.1 < b.1
  · exact Or.inl (by simp [h1])
  · by_cases h2 : b.1 < a.1
    · exact Or.inr (by simp [h2])
    · by_cases h3 : a.2.1 < b.2.1
      · exact Or.inl (by simp [h1, h2, h3])
      · by_cases h4 : b.2.1 < a.2.1
        · exact Or.inr (by simp [h1, h2, h4])
        · rcases charListLE_total a.2.2 b.2.2 with h | h
          · exact Or.inl (by simp [h1, h2, h3, h4, h])
          · exact Or.inr (by simp [h1, h2, h3, h4, h])

theorem sortKeyLE_trans (a b c : Int × Int × List Char)
    (hab : sortKeyLE a b = true) (hbc : sortKeyLE b c = true) :
    sortKeyLE a c = true := by
  unfold sortKeyLE at hab hbc ⊢
  by_cases h1 : a.1 < b.1 <;> by_cases h2 : b.1 < c.1
  · simp [lt_trans h1 h2]
  · by_cases h3 : c.1 < b.1
    · simp [h2, h3] at hbc
    · have : b.1 = c.1 := le_antisymm (not_lt.mp h3) (not_lt.mp h2)
      simp [this ▸ h1]
  · by_cases h3 : b.1 < a.1
    · simp [h1, h3] at hab
    · have : a.1 = b.1 := le_antisymm (not_lt.mp h3) (not_lt.mp h1)
      simp [this ▸ h2]
  · by_cases h3 : b.1 < a.1
    · simp [h1, h3] at hab
    · by_cases h4 : c.1 < b.1
      · simp [h2, h4] at hbc
      · have e1 : a.1 = b.1 := le_antisymm (not_lt.mp h3) (not_lt.mp h1)
        have e2 : b.1 = c.1 := le_antisymm (not_lt.mp h4) (not_lt.mp h2)
        have hac1 : ¬ a.1 < c.1 := by rw [e1, e2]; exact lt_irrefl _
        have hca1 : ¬ c.1 < a.1 := by rw [e1, e2]; exact lt_irrefl _
        simp only [h1, h3, if_false] at hab
        simp only [h2, h4, if_false] at hbc
        simp only [hac1, hca1, if_false]
        by_cases h5 : a.2.1 < b.2.1 <;> by_cases h6 : b.2.1 < c.2.1
        · simp [lt_trans h5 h6]
        · by_cases h7 : c.2.1 < b.2.1
          · simp [h6, h7] at hbc
          · have : b.2.1 = c.2.1 := le_antisymm (not_lt.mp h7) (not_lt.mp h6)
            simp [this ▸ h5]
        · by_cases h7 : b.2.1 < a.2.1
          · simp [h5, h7] at hab
          · have : a.2.1 = b.2.1 := le_antisymm (not_lt.mp h7) (not_lt.mp h5)
            simp [this ▸ h6]
        · by_cases h7 : b.2.1 < a.2.1
          · simp [h5, h7] at hab
          · by_cases h8 : c.2.1 < b.2.1
            · simp [h6, h8] at hbc
            · have e3 : a.2.1 = b.2.1 := le_antisymm (not_lt.mp h7) (not_lt.mp h5)
              have e4 : b.2.1 = c.2.1 := le_antisymm (not_lt.mp h8) (not_lt.mp h6)
              have hac2 : ¬ a.2.1 < c.2.1 := by rw [e3, e4]; exact lt_irrefl _
              have hca2 : ¬ c.2.1 < a.2.1 := by rw [e3, e4]; exact lt_irrefl _
              simp only [h5, h7, if_false] at hab
              simp only [h6, h8, if_false] at hbc
              simp only [hac2, hca2, if_false]
              exact charListLE_trans _ _ _ hab hbc

/-- Claim C9 (amended) -/
theorem empty_sort_tiebreak (items : List SteamExtensionItem) :
    (emptySortItems items).Pairwise (fun a b =>
      a.launched = b.launched → a.playtime = b.playtime →
        charListLE (to_sort_list a).2.2 (to_sort_list b).2.2 = true) := by
  have hsorted : (emptySortItems items).Pairwise (fun a b =>
      sortKeyLE (to_sort_list a) (to_sort_list b) = true) := by
    haveI : IsTotal SteamExtensionItem
        (fun x y => sortKeyLE (to_sort_list x) (to_sort_list y) = true) :=
      ⟨fun x y => sortKeyLE_total (to_sort_list x) (to_sort_list y)⟩
    haveI : IsTrans SteamExtensionItem
        (fun x y => sortKeyLE (to_sort_list x) (to_sort_list y) = true) :=
      ⟨fun x y z => sortKeyLE_trans (to_sort_list x) (to_sort_list y) (to_sort_list z)⟩
    exact List.sorted_insertionSort _ items
  refine hsorted.imp ?_
  intro a b hle hl hp
  have h1 : (to_sort_list a).1 = (to_sort_list b).1 := by
    unfold to_sort_list
    rw [hl]
  have h2 : (to_sort_list a).2.1 = (to_sort_list b).2.1 := by
    unfold to_sort_list
    rw [hp]
  unfold sortKeyLE at hle
  rw [h1, h2] at hle
  simp only [lt_irrefl, if_false] at hle
  exact hle

/-- Counterexample to claim C9 as stated: two app items with equal
lastLaunched (never launched) and equal timesLaunched are ordered by
playtime, not by name — the empty-search sort places `zzz` (playtime 10)
before `aaa` (playtime 0) although `aaa` precedes `zzz` alphabetically. -/
theorem empty_sort_counterexample :
    emptySortItems [itemAaa, itemZzz] = [itemZzz, itemAaa] ∧
    itemAaa.launched = itemZzz.launched ∧
    itemAaa.times = itemZzz.times ∧
    itemAaa.type = "app" ∧ itemZzz.type = "app" ∧
    charListLE (to_sort_list itemAaa).2.2 (to_sort_list itemZzz).2.2 = true ∧
    charListLE (to_sort_list itemZzz).2.2 (to_sort_list itemAaa).2.2 = false :=
  ⟨rfl, rfl, rfl, rfl, rfl, by decide, by decide⟩

theorem except_bind_ok {α β : Type} (a : α) (f : α → Except String β) :
    (Except.ok a >>= f) = f a := rfl

theorem except_bind_err {α β : Type} (e : String) (f : α → Except String β) :
    ((Except.error e : Except String α) >>= f) = Except.error e := rfl

theorem except_pure {α : Type} (a : α) :
    (pure a : Except String α) = Except.ok a := rfl

theorem except_bind_inv {α β : Type} {e : Except String α}
    {k : α → Except String β} {r : β} (h : (e >>= k) = Except.ok r) :
    ∃ a, e = Except.ok a ∧ k a = Except.ok r := by
  cases e with
  | ok a => exact ⟨a, rfl, h⟩
  | error msg => rw [except_bind_err] at h; cases h

theorem except_ite_inv {α : Type} {c : Prop} [Decidable c]
    {e1 e2 : Except String α} {r : α}
    (h : (if c then e1 else e2) = Except.ok r) :
    (c ∧ e1 = Except.ok r) ∨ (¬c ∧ e2 = Except.ok r) := by
  by_cases hc : c
  · exact Or.inl ⟨hc, by rwa [if_pos hc] at h⟩
  · exact Or.inr ⟨hc, by rwa [if_neg hc] at h⟩

theorem filterMatching_mem (env : QueryEnv)
    (lang : List (String × List (String × String)))
    (preferences : List (String × String)) (tokens : List String) :
    ∀ (items res : List SteamExtensionItem),
      filterMatching env lang preferences tokens items = Except.ok res →
      ∀ it, it ∈ res ↔ (it ∈ items ∧ ∃ text,
        itemText env lang preferences it = Except.ok text ∧
        tokens.all (fun w => pyContains text w) = true) := by
  intro items
  induction items with
  | nil =>
    intro res h it
    simp only [filterMatching] at h
    cases h
    simp
  | cons item rest ih =>
    intro res h it
    unfold filterMatching at h
    cases htext : itemText env lang preferences item with
    | error e => rw [htext, except_bind_err] at h; cases h
    | ok text =>
      rw [htext, except_bind_ok] at h
      cases hrest : filterMatching env lang preferences tokens rest with
      | error e => rw [hrest, except_bind_err] at h; cases h
      | ok r =>
        rw [hrest, except_bind_ok, except_pure] at h
        cases h
        by_cases hall : tokens.all (fun w => pyContains text w) = true
        · rw [if_pos hall]
          constructor
          · intro hmem
            rcases List.mem_cons.mp hmem with rfl | hmem2
            · exact ⟨List.mem_cons_self _ _, text, htext, hall⟩
            · obtain ⟨hm, hmatch⟩ := (ih r hrest it).mp hmem2
              exact ⟨List.mem_cons_of_mem _ hm, hmatch⟩
          · rintro ⟨hmem, hmatch⟩
            rcases List.mem_cons.mp hmem with rfl | hmem2
            · exact List.mem_cons_self _ _
            · exact List.mem_cons_of_mem _ ((ih r hrest it).mpr ⟨hmem2, hmatch⟩)
        · rw [if_neg hall]
          constructor
          · intro hmem
            obtain ⟨hm, hmatch⟩ := (ih r hrest it).mp hmem
            exact ⟨List.mem_cons_of_mem _ hm, hmatch⟩
          · rintro ⟨hmem, hmatch⟩
            rcases List.mem_cons.mp hmem with rfl | hmem2
            · obtain ⟨text2, htext2, hall2⟩ := hmatch
              rw [htext] at htext2
              cases htext2
              exact absurd hall2 hall
            · exact (ih r hrest it).mpr ⟨hmem2, hmatch⟩

theorem appsLoop_mem (env : QueryEnv)
    (lang : List (String × List (String × String)))
    (preferences : List (String × String)) (bl : List Int) :
    ∀ (entries : List (String × PyVal)) (st : Option Int × Int)
      (res : List SteamExtensionItem × (Option Int × Int)),
      appsLoop env lang preferences bl entries st = Except.ok res →
      ∀ it ∈ res.1, it.type = "app" ∧
        ∃ n, it.id = some n ∧ bl.contains n = false := by
  intro entries
  induction entries with
  | nil =>
    intro st res h it hit
    simp only [appsLoop] at h
    cases h
    cases hit
  | cons p rest ih =>
    obtain ⟨app_id, app_info⟩ := p
    intro st res h it hit
    cases app_info with
    | dict info =>
      unfold appsLoop at h
      cases hparse : pyIntOfString app_id with
      | none => simp only [hparse] at h; cases h
      | some app_id_int =>
        simp only [hparse] at h
        by_cases hbl : bl.contains app_id_int
        · rw [if_pos hbl] at h
          exact ih st res h it hit
        · rw [if_neg hbl] at h
          cases hloc : asOptStr (pyGet info "dir") with
          | error e => rw [hloc, except_bind_err] at h; cases h
          | ok location =>
            rw [hloc, except_bind_ok] at h
            cases hsize : asIntDefault (pyGet info "size") 0 with
            | error e => rw [hsize, except_bind_err] at h; cases h
            | ok size =>
              rw [hsize, except_bind_ok] at h
              cases hsu : prefGet preferences "SHOW_UNINSTALLED" with
              | error e => rw [hsu, except_bind_err] at h; cases h
              | ok show_uninstalled =>
                rw [hsu, except_bind_ok] at h
                by_cases hskip : show_uninstalled = "false" ∧
                    location = Option.none ∧ size = 0
                · rw [if_pos hskip] at h
                  exact ih st res h it hit
                · rw [if_neg hskip] at h
                  cases hname : pyGet info "name" with
                  | none =>
                    simp only [hname] at h
                    rw [except_bind_err] at h
                    cases h
                  | some nameV =>
                    cases nameV with
                    | none =>
                      simp only [hname] at h
                      rw [except_bind_err] at h
                      cases h
                    | bool b2 =>
                      simp only [hname] at h
                      rw [except_bind_err] at h
                      cases h
                    | int n2 =>
                      simp only [hname] at h
                      rw [except_bind_err] at h
                      cases h
                    | dt t2 =>
                      simp only [hname] at h
                      rw [except_bind_err] at h
                      cases h
                    | dict d2 =>
                      simp only [hname] at h
                      rw [except_bind_err] at h
                      cases h
                    | str name =>
                     simp only [hname] at h
                     rw [except_bind_ok] at h
                     cases hlangp : prefGet preferences "LANGUAGE" with
                    | error e => rw [hlangp, except_bind_err] at h; cases h
                    | ok language =>
                      rw [hlangp, except_bind_ok] at h
                      cases hpt : asIntDefault (pyGet info "playtime") 0 with
                      | error e => rw [hpt, except_bind_err] at h; cases h
                      | ok playtime =>
                        rw [hpt, except_bind_ok] at h
                        cases hrec : appsLoop env lang preferences bl rest
                            (compare_launches env.offset st info).1 with
                        | error e => rw [hrec] at h; cases h
                        | ok r =>
                          rw [hrec] at h
                          simp only [Except.map] at h
                          cases h
                          rcases List.mem_cons.mp hit with rfl | hmem2
                          · refine ⟨rfl, app_id_int, rfl, ?_⟩
                            cases hx : bl.contains app_id_int
                            · rfl
                            · exact absurd hx hbl
                          · exact ih _ (r.1, r.2) (by rw [hrec]) it hmem2
    | none =>
      unfold appsLoop at h
      cases hparse : pyIntOfString app_id with
      | none => simp only [hparse] at h; cases h
      | some app_id_int =>
        simp only [hparse] at h
        by_cases hbl : bl.contains app_id_int
        · rw [if_pos hbl] at h
          exact ih st res h it hit
        · rw [if_neg hbl] at h
          exact ih st res h it hit
    | bool b =>
      unfold appsLoop at h
      cases hparse : pyIntOfString app_id with
      | none => simp only [hparse] at h; cases h
      | some app_id_int =>
        simp only [hparse] at h
        by_cases hbl : bl.contains app_id_int
        · rw [if_pos hbl] at h
          exact ih st res h it hit
        · rw [if_neg hbl] at h
          exact ih st res h it hit
    | int n =>
      unfold appsLoop at h
      cases hparse : pyIntOfString app_id with
      | none => simp only [hparse] at h; cases h
      | some app_id_int =>
        simp only [hparse] at h
        by_cases hbl : bl.contains app_id_int
        · rw [if_pos hbl] at h
          exact ih st res h it hit
        · rw [if_neg hbl] at h
          exact ih st res h it hit
    | str s =>
      unfold appsLoop at h
      cases hparse : pyIntOfString app_id with
      | none => simp only [hparse] at h; cases h
      | some app_id_int =>
        simp only [hparse] at h
        by_cases hbl : bl.contains app_id_int
        · rw [if_pos hbl] at h
          exact ih st res h it hit
        · rw [if_neg hbl] at h
          exact ih st res h it hit
    | dt t =>
      unfold appsLoop at h
      cases hparse : pyIntOfString app_id with
      | none => simp only [hparse] at h; cases h
      | some app_id_int =>
        simp only [hparse] at h
        by_cases hbl : bl.contains app_id_int
        · rw [if_pos hbl] at h
          exact ih st res h it hit
        · rw [if_neg hbl] at h
          exact ih st res h it hit

theorem nonSteamLoop_mem (env : QueryEnv)
    (lang : List (String × List (String × String)))
    (preferences : List (String × String)) (bl : List Int) :
    ∀ (entries : List (String × PyVal)) (st : Option Int × Int)
      (res : List SteamExtensionItem × (Option Int × Int)),
      nonSteamLoop env lang preferences bl entries st = Except.ok res →
      ∀ it ∈ res.1, it.type = "app" ∧
        ∃ n, it.id = some n ∧ bl.contains n = false := by
  intro entries
  induction entries with
  | nil =>
    intro st res h it hit
    simp only [nonSteamLoop] at h
    cases h
    cases hit
  | cons p rest ih =>
    obtain ⟨app_id, app_info⟩ := p
    intro st res h it hit
    unfold nonSteamLoop at h
    cases hparse : pyIntOfString app_id with
    | none =>
      simp only [hparse] at h
      exact ih st res h it hit
    | some app_id_int =>
      simp only [hparse] at h
      by_cases hbl : bl.contains app_id_int
      · rw [if_pos hbl] at h
        exact ih st res h it hit
      · rw [if_neg hbl] at h
        cases app_info with
        | dict info =>
          cases hname : pyGet info "name" with
          | none =>
            simp only [hname] at h
            rw [except_bind_err] at h
            cases h
          | some nameV =>
            cases nameV with
            | none => simp only [hname] at h; rw [except_bind_err] at h; cases h
            | bool b2 => simp only [hname] at h; rw [except_bind_err] at h; cases h
            | int n2 => simp only [hname] at h; rw [except_bind_err] at h; cases h
            | dt t2 => simp only [hname] at h; rw [except_bind_err] at h; cases h
            | dict d2 => simp only [hname] at h; rw [except_bind_err] at h; cases h
            | str name =>
              simp only [hname] at h
              rw [except_bind_ok] at h
              cases hlangp : prefGet preferences "LANGUAGE" with
              | error e => rw [hlangp, except_bind_err] at h; cases h
              | ok language =>
                rw [hlangp, except_bind_ok] at h
                cases hloc : asOptStr (pyGet info "exe") with
                | error e => rw [hloc, except_bind_err] at h; cases h
                | ok location =>
                  rw [hloc, except_bind_ok] at h
                  cases hsize : asIntDefault (pyGet info "size") 0 with
                  | error e => rw [hsize, except_bind_err] at h; cases h
                  | ok size =>
                    rw [hsize, except_bind_ok] at h
                    cases hrec : nonSteamLoop env lang preferences bl rest
                        (compare_launches env.offset st info).1 with
                    | error e => rw [hrec] at h; cases h
                    | ok r =>
                      rw [hrec] at h
                      simp only [Except.map] at h
                      cases h
                      rcases List.mem_cons.mp hit with rfl | hmem2
                      · refine ⟨rfl, app_id_int, rfl, ?_⟩
                        cases hx : bl.contains app_id_int
                        · rfl
                        · exact absurd hx hbl
                      · exact ih _ (r.1, r.2) (by rw [hrec]) it hmem2
        | none => simp only [] at h; cases h
        | bool b => simp only [] at h; cases h
        | int n => simp only [] at h; cases h
        | str s => simp only [] at h; cases h
        | dt t => simp only [] at h; cases h

theorem friendsLoop_mem (env : QueryEnv)
    (preferences : List (String × String)) (cache : List (String × PyVal))
    (fbl : List Int) :
    ∀ (entries : List (String × PyVal)) (st : Option Int × Int)
      (res : List SteamExtensionItem × (Option Int × Int)),
      friendsLoop env preferences cache fbl entries st = Except.ok res →
      ∀ it ∈ res.1, it.type = "friend" := by
  intro entries
  induction entries with
  | nil =>
    intro st res h it hit
    simp only [friendsLoop] at h
    cases h
    cases hit
  | cons p rest ih =>
    obtain ⟨friend_id, friend_info⟩ := p
    intro st res h it hit
    cases friend_info with
    | dict info =>
      unfold friendsLoop at h
      cases hparse : pyIntOfString friend_id with
      | none =>
        simp only [hparse] at h
        exact ih st res h it hit
      | some friend_id_int =>
        simp only [hparse] at h
        by_cases hbl : fbl.contains friend_id_int
        · rw [if_pos hbl] at h
          exact ih st res h it hit
        · rw [if_neg hbl] at h
          cases hname : pyGet info "name" with
          | none =>
            simp only [hname] at h
            rw [except_bind_ok] at h
            cases hrn : asOptStr (pyGet info "realName") with
            | error e => rw [hrn, except_bind_err] at h; cases h
            | ok real_name =>
              rw [hrn, except_bind_ok] at h
              cases hlo : friendLocation cache info with
              | error e => rw [hlo, except_bind_err] at h; cases h
              | ok location =>
                rw [hlo, except_bind_ok] at h
                cases hup : timestamp_to_datetime_from_dict env.offset info "updated" with
                | error e => rw [hup, except_bind_err] at h; cases h
                | ok updated =>
                  rw [hup, except_bind_ok] at h
                  cases hcr : timestamp_to_datetime_from_dict env.offset info "created" with
                  | error e => rw [hcr, except_bind_err] at h; cases h
                  | ok created =>
                    rw [hcr, except_bind_ok] at h
                    cases hrec : friendsLoop env preferences cache fbl rest
                        (compare_launches env.offset st info).1 with
                    | error e => rw [hrec] at h; cases h
                    | ok r =>
                      rw [hrec] at h
                      simp only [Except.map] at h
                      cases h
                      rcases List.mem_cons.mp hit with rfl | hmem2
                      · rfl
                      · exact ih _ (r.1, r.2) (by rw [hrec]) it hmem2
          | some nameV =>
            cases nameV with
            | none => simp only [hname] at h; rw [except_bind_err] at h; cases h
            | bool b2 => simp only [hname] at h; rw [except_bind_err] at h; cases h
            | int n2 => simp only [hname] at h; rw [except_bind_err] at h; cases h
            | dt t2 => simp only [hname] at h; rw [except_bind_err] at h; cases h
            | dict d2 => simp only [hname] at h; rw [except_bind_err] at h; cases h
            | str name =>
              simp only [hname] at h
              rw [except_bind_ok] at h
              cases hrn : asOptStr (pyGet info "realName") with
              | error e => rw [hrn, except_bind_err] at h; cases h
              | ok real_name =>
                rw [hrn, except_bind_ok] at h
                cases hlo : friendLocation cache info with
                | error e => rw [hlo, except_bind_err] at h; cases h
                | ok location =>
                  rw [hlo, except_bind_ok] at h
                  cases hup : timestamp_to_datetime_from_dict env.offset info "updated" with
                  | error e => rw [hup, except_bind_err] at h; cases h
                  | ok updated =>
                    rw [hup, except_bind_ok] at h
                    cases hcr : timestamp_to_datetime_from_dict env.offset info "created" with
                    | error e => rw [hcr, except_bind_err] at h; cases h
                    | ok created =>
                      rw [hcr, except_bind_ok] at h
                      cases hrec : friendsLoop env preferences cache fbl rest
                          (compare_launches env.offset st info).1 with
                      | error e => rw [hrec] at h; cases h
                      | ok r =>
                        rw [hrec] at h
                        simp only [Except.map] at h
                        cases h
                        rcases List.mem_cons.mp hit with rfl | hmem2
                        · rfl
                        · exact ih _ (r.1, r.2) (by rw [hrec]) it hmem2
    | none =>
      unfold friendsLoop at h
      cases hparse : pyIntOfString friend_id with
      | none => simp only [hparse] at h; exact ih st res h it hit
      | some friend_id_int =>
        simp only [hparse] at h
        by_cases hbl : fbl.contains friend_id_int
        · rw [if_pos hbl] at h; exact ih st res h it hit
        · rw [if_neg hbl] at h; exact ih st res h it hit
    | bool b =>
      unfold friendsLoop at h
      cases hparse : pyIntOfString friend_id with
      | none => simp only [hparse] at h; exact ih st res h it hit
      | some friend_id_int =>
        simp only [hparse] at h
        by_cases hbl : fbl.contains friend_id_int
        · rw [if_pos hbl] at h; exact ih st res h it hit
        · rw [if_neg hbl] at h; exact ih st res h it hit
    | int n =>
      unfold friendsLoop at h
      cases hparse : pyIntOfString friend_id with
      | none => simp only [hparse] at h; exact ih st res h it hit
      | some friend_id_int =>
        simp only [hparse] at h
        by_cases hbl : fbl.contains friend_id_int
        · rw [if_pos hbl] at h; exact ih st res h it hit
        · rw [if_neg hbl] at h; exact ih st res h it hit
    | str s =>
      unfold friendsLoop at h
      cases hparse : pyIntOfString friend_id with
      | none => simp only [hparse] at h; exact ih st res h it hit
      | some friend_id_int =>
        simp only [hparse] at h
        by_cases hbl : fbl.contains friend_id_int
        · rw [if_pos hbl] at h; exact ih st res h it hit
        · rw [if_neg hbl] at h; exact ih st res h it hit
    | dt t =>
      unfold friendsLoop at h
      cases hparse : pyIntOfString friend_id with
      | none => simp only [hparse] at h; exact ih st res h it hit
      | some friend_id_int =>
        simp only [hparse] at h
        by_cases hbl : fbl.contains friend_id_int
        · rw [if_pos hbl] at h; exact ih st res h it hit
        · rw [if_neg hbl] at h; exact ih st res h it hit

theorem navIdItem_type (env : QueryEnv)
    (lang : List (String × List (String × String)))
    (preferences : List (String × String)) (cache : List (String × PyVal))
    (abl fbl : List Int) (keyword : String) (kws : Keywords)
    (name ndn : String) (desc : Option String) (id : Option Int)
    (st : Option Int × Int)
    {r : Option SteamExtensionItem × (Option Int × Int)}
    (h : navIdItem env lang preferences cache abl fbl keyword kws name ndn
      desc id st = Except.ok r) :
    ∀ item, r.1 = some item → item.type = "nav" := by
  unfold navIdItem at h
  rcases except_ite_inv h with ⟨-, h⟩ | ⟨-, h⟩
  · cases h; intro item hi; cases hi
  · obtain ⟨userEmpty, -, h⟩ := except_bind_inv h
    rcases except_ite_inv h with ⟨-, h⟩ | ⟨-, h⟩
    · cases h; intro item hi; cases hi
    · rcases except_ite_inv h with ⟨-, h⟩ | ⟨-, h⟩
      · cases h; intro item hi; cases hi
      · obtain ⟨step2, -, h⟩ := except_bind_inv h
        cases step2 with
        | none => cases h; intro item hi; cases hi
        | some t =>
          obtain ⟨idn, idd, ip2⟩ := t
          cases h
          intro item hi
          cases hi
          rfl

theorem navIdsLoop_mem (env : QueryEnv)
    (lang : List (String × List (String × String)))
    (preferences : List (String × String)) (cache : List (String × PyVal))
    (abl fbl : List Int) (keyword : String) (kws : Keywords)
    (name ndn : String) (desc : Option String) :
    ∀ (ids : List (Option Int)) (st : Option Int × Int)
      (res : List SteamExtensionItem × (Option Int × Int)),
      navIdsLoop env lang preferences cache abl fbl keyword kws name ndn
        desc ids st = Except.ok res →
      ∀ it ∈ res.1, it.type = "nav" := by
  intro ids
  induction ids with
  | nil =>
    intro st res h it hit
    simp only [navIdsLoop] at h
    cases h
    cases hit
  | cons id rest ih =>
    intro st res h it hit
    unfold navIdsLoop at h
    obtain ⟨p, hp, h⟩ := except_bind_inv h
    obtain ⟨itemOpt, st2⟩ := p
    obtain ⟨q, hq, h⟩ := except_bind_inv h
    obtain ⟨l, stf⟩ := q
    cases itemOpt with
    | none =>
      cases h
      exact ih st2 (l, stf) hq it hit
    | some item0 =>
      cases h
      rcases List.mem_cons.mp hit with rfl | hmem
      · exact navIdItem_type env lang preferences cache abl fbl keyword kws
          name ndn desc id st hp it rfl
      · exact ih st2 (l, stf) hq it hmem

theorem navItemsForName_mem (env : QueryEnv)
    (lang : List (String × List (String × String)))
    (preferences : List (String × String)) (cache : List (String × PyVal))
    (abl fbl : List Int) (keyword : String) (kws : Keywords) (name : String)
    (st : Option Int × Int)
    {res : List SteamExtensionItem × (Option Int × Int)}
    (h : navItemsForName env lang preferences cache abl fbl keyword kws
      name st = Except.ok res) :
    ∀ it ∈ res.1, it.type = "nav" := by
  unfold navItemsForName at h
  obtain ⟨language, -, h⟩ := except_bind_inv h
  obtain ⟨idsRes, -, h⟩ := except_bind_inv h
  cases idsRes with
  | none =>
    cases h
    intro it hit
    cases hit
  | some ids =>
    intro it hit
    exact navIdsLoop_mem env lang preferences cache abl fbl keyword kws
      name _ _ ids st res h it hit

theorem navsLoop_mem (env : QueryEnv)
    (lang : List (String × List (String × String)))
    (preferences : List (String × String)) (cache : List (String × PyVal))
    (abl fbl : List Int) (keyword : String) (kws : Keywords) :
    ∀ (names : List String) (st : Option Int × Int)
      (res : List SteamExtensionItem × (Option Int × Int)),
      navsLoop env lang preferences cache abl fbl keyword kws names st =
        Except.ok res →
      ∀ it ∈ res.1, it.type = "nav" := by
  intro names
  induction names with
  | nil =>
    intro st res h it hit
    simp only [navsLoop] at h
    cases h
    cases hit
  | cons name rest ih =>
    intro st res h it hit
    unfold navsLoop at h
    obtain ⟨p, hp, h⟩ := except_bind_inv h
    obtain ⟨l1, st2⟩ := p
    obtain ⟨q, hq, h⟩ := except_bind_inv h
    obtain ⟨l2, stf⟩ := q
    cases h
    rcases List.mem_append.mp hit with h1 | h2
    · exact navItemsForName_mem env lang preferences cache abl fbl keyword
        kws name st hp it h1
    · exact ih st2 (l2, stf) hq it h2

theorem actionItems_mem (env : QueryEnv)
    (lang : List (String × List (String × String)))
    (preferences : List (String × String)) {res : List SteamExtensionItem}
    (h : actionItems env lang preferences = Except.ok res) :
    ∀ it ∈ res, it.type = "action" := by
  unfold actionItems at h
  obtain ⟨language, -, h⟩ := except_bind_inv h
  rw [except_pure] at h
  cases h
  intro it hit
  obtain ⟨name, -, rfl⟩ := List.mem_map.mp hit
  rfl

theorem appSection_mem (env : QueryEnv)
    (lang : List (String × List (String × String)))
    (preferences : List (String × String)) (abl : List Int)
    (cache : List (String × PyVal)) (st0 : Option Int × Int)
    {res : List SteamExtensionItem × (Option Int × Int)}
    (h : appSection env lang preferences abl cache st0 = Except.ok res) :
    ∀ it ∈ res.1, it.type = "app" ∧
      ∃ n, it.id = some n ∧ abl.contains n = false := by
  unfold appSection at h
  obtain ⟨p, hp, h⟩ := except_bind_inv h
  obtain ⟨a, st⟩ := p
  obtain ⟨q, hq, h⟩ := except_bind_inv h
  obtain ⟨b, st2⟩ := q
  cases h
  intro it hit
  rcases List.mem_append.mp hit with h1 | h2
  · cases hpa : pyGet cache "apps" with
    | none => rw [hpa] at hp; cases hp; cases h1
    | some v =>
      cases v with
      | dict apps =>
        rw [hpa] at hp
        exact appsLoop_mem env lang preferences abl apps st0 (a, st) hp it h1
      | none => rw [hpa] at hp; cases hp; cases h1
      | bool bb => rw [hpa] at hp; cases hp; cases h1
      | int nn => rw [hpa] at hp; cases hp; cases h1
      | str ss => rw [hpa] at hp; cases hp; cases h1
      | dt tt => rw [hpa] at hp; cases hp; cases h1
  · cases hpn : pyGet cache "nonSteam" with
    | none => rw [hpn] at hq; cases hq; cases h2
    | some v =>
      cases v with
      | dict ns =>
        rw [hpn] at hq
        exact nonSteamLoop_mem env lang preferences abl ns st (b, st2) hq it h2
      | none => rw [hpn] at hq; cases hq; cases h2
      | bool bb => rw [hpn] at hq; cases hq; cases h2
      | int nn => rw [hpn] at hq; cases hq; cases h2
      | str ss => rw [hpn] at hq; cases hq; cases h2
      | dt tt => rw [hpn] at hq; cases hq; cases h2

theorem friendSection_mem (env : QueryEnv)
    (preferences : List (String × String)) (cache : List (String × PyVal))
    (fbl : List Int) (st1 : Option Int × Int)
    {res : List SteamExtensionItem × (Option Int × Int)}
    (h : friendSection env preferences cache fbl st1 = Except.ok res) :
    ∀ it ∈ res.1, it.type = "friend" := by
  unfold friendSection at h
  cases hpf : pyGet cache "friends" with
  | none => rw [hpf] at h; cases h; intro it hit; cases hit
  | some v =>
    cases v with
    | dict fr =>
      rw [hpf] at h
      exact friendsLoop_mem env preferences cache fbl fr st1 res h
    | none => rw [hpf] at h; cases h; intro it hit; cases hit
    | bool bb => rw [hpf] at h; cases h; intro it hit; cases hit
    | int nn => rw [hpf] at h; cases h; intro it hit; cases hit
    | str ss => rw [hpf] at h; cases h; intro it hit; cases hit
    | dt tt => rw [hpf] at h; cases h; intro it hit; cases hit

theorem navSection_mem (env : QueryEnv)
    (lang : List (String × List (String × String)))
    (preferences : List (String × String)) (cache : List (String × PyVal))
    (abl fbl : List Int) (keyword : String) (kws : Keywords)
    (st2 : Option Int × Int)
    {res : List (String × PyVal) × List SteamExtensionItem}
    (h : navSection env lang preferences cache abl fbl keyword kws st2 =
      Except.ok res) :
    ∀ it ∈ res.2, it.type = "nav" := by
  unfold navSection at h
  obtain ⟨p, hp, h⟩ := except_bind_inv h
  obtain ⟨l, stf⟩ := p
  cases h
  intro it hit
  exact navsLoop_mem env lang preferences _ abl fbl keyword kws
    STEAM_NAVIGATIONS st2 (l, stf) hp it hit

theorem emptySortItems_mem (items : List SteamExtensionItem) :
    ∀ it ∈ emptySortItems items, it ∈ items := by
  intro it hit
  exact (List.Perm.mem_iff (List.perm_insertionSort _ items)).mp hit

theorem query_cache_app_blacklist (env : QueryEnv)
    (lang : List (String × List (String × String))) (keyword : String)
    (preferences : List (String × String)) (search : Option String)
    (cache : List (String × PyVal)) (abl : List Int)
    (res : List SteamExtensionItem)
    (hsort : ∀ (l : List SteamExtensionItem) it,
      it ∈ env.placementSort l → it ∈ l)
    (habl : get_blacklist "app" preferences = Except.ok abl)
    (h : query_cache env lang keyword preferences search cache =
      Except.ok res) :
    ∀ it ∈ res, it.type = "app" →
      ∃ n, it.id = some n ∧ abl.contains n = false := by
  unfold query_cache at h
  rcases except_ite_inv h with ⟨-, h⟩ | ⟨-, h⟩
  · cases h
  · obtain ⟨kwAll, -, h⟩ := except_bind_inv h
    obtain ⟨kwApps, -, h⟩ := except_bind_inv h
    obtain ⟨kwFriends, -, h⟩ := except_bind_inv h
    obtain ⟨kwNavs, -, h⟩ := except_bind_inv h
    obtain ⟨kwExt, -, h⟩ := except_bind_inv h
    obtain ⟨abl2, habl2, h⟩ := except_bind_inv h
    rw [habl] at habl2
    injection habl2 with heq
    subst heq
    obtain ⟨fbl, -, h⟩ := except_bind_inv h
    obtain ⟨pA, hA, h⟩ := except_bind_inv h
    obtain ⟨appItems, st1⟩ := pA
    obtain ⟨pF, hF, h⟩ := except_bind_inv h
    obtain ⟨friendItems, st2⟩ := pF
    obtain ⟨pN, hN, h⟩ := except_bind_inv h
    obtain ⟨cache2, navItems⟩ := pN
    obtain ⟨actItems, hAct, h⟩ := except_bind_inv h
    obtain ⟨items2, hItems, h⟩ := except_bind_inv h
    obtain ⟨max_items_str, -, h⟩ := except_bind_inv h
    have hApp : ∀ x ∈ appItems, x.type = "app" ∧
        ∃ n, x.id = some n ∧ abl.contains n = false := by
      rcases except_ite_inv hA with ⟨-, hA2⟩ | ⟨-, hA2⟩
      · exact appSection_mem env lang preferences abl cache _ hA2
      · cases hA2; intro x hx; cases hx
    have hFr : ∀ x ∈ friendItems, x.type = "friend" := by
      rcases except_ite_inv hF with ⟨-, hF2⟩ | ⟨-, hF2⟩
      · exact fun x hx =>
          friendSection_mem env preferences cache _ _ hF2 x hx
      · cases hF2; intro x hx; cases hx
    have hNav : ∀ x ∈ navItems, x.type = "nav" := by
      rcases except_ite_inv hN with ⟨-, hN2⟩ | ⟨-, hN2⟩
      · exact fun x hx =>
          navSection_mem env lang preferences cache abl _ _ _ _ hN2 x hx
      · cases hN2; intro x hx; cases hx
    have hAc : ∀ x ∈ actItems, x.type = "action" := by
      rcases except_ite_inv hAct with ⟨-, hAct2⟩ | ⟨-, hAct2⟩
      · exact actionItems_mem env lang preferences hAct2
      · cases hAct2; intro x hx; cases hx
    have hmain : ∀ x ∈ appItems ++ friendItems ++ navItems ++ actItems,
        x.type = "app" → ∃ n, x.id = some n ∧ abl.contains n = false := by
      intro x hx hxt
      rcases List.mem_append.mp hx with hx3 | hx4
      · rcases List.mem_append.mp hx3 with hx1 | hx2
        · rcases List.mem_append.mp hx1 with hxa | hxf
          · exact (hApp x hxa).2
          · rw [hFr x hxf] at hxt; exact absurd hxt (by decide)
        · rw [hNav x hx2] at hxt; exact absurd hxt (by decide)
      · rw [hAc x hx4] at hxt; exact absurd hxt (by decide)
    have hmem2 : ∀ x ∈ items2,
        x ∈ appItems ++ friendItems ++ navItems ++ actItems := by
      rcases except_ite_inv hItems with ⟨-, hI⟩ | ⟨-, hI⟩
      · cases hI
        exact fun x hx => emptySortItems_mem _ x hx
      · obtain ⟨filtered, hfil, hI⟩ := except_bind_inv hI
        cases hI
        exact fun x hx =>
          ((filterMatching_mem env lang preferences _ _ _ hfil x).mp
            (hsort filtered x hx)).1
    rcases except_ite_inv h with ⟨-, h⟩ | ⟨-, h⟩
    · obtain ⟨language, -, h⟩ := except_bind_inv h
      cases h
      intro it hit htype
      have hone := List.mem_singleton.mp hit
      subst hone
      have htype2 : ("action" : String) = "app" := htype
      exact absurd htype2 (by decide)
    · cases h
      intro it hit htype
      exact hmain it (hmem2 it (List.take_subset _ _ hit)) htype

/-- Claim C1: the merge's per-field default rule is unreachable — the
merge loop iterates `for key, value in update.keys()`, unpacking each key
string itself, so an update holding any real field name (here `name`,
four characters) raises an uncaught `ValueError` instead of overwriting
the source record's field with the present incoming value. -/
theorem merge_default_rule_crashes (source : List (String × PyVal))
    (v : PyVal) :
    merge_dictionaries source [("name", v)] [] [] =
      Except.error ("ValueError: cannot unpack key name") := rfl

/-- Claim C3: merging the same incoming record twice cannot be compared
with merging it once because already the first merge of a record holding
the launch-statistics field `launched` (eight characters, so the
`for key, value in update.keys()` unpack fails) raises an uncaught
`ValueError` — the `return_launches` rule, which would keep the newer of
the two launch values, is never reached. -/
theorem merge_idempotence_crashes (source : List (String × PyVal))
    (v : PyVal) (now : Int) :
    merge_dictionaries source [("launched", v)] []
      [("launched", return_launches now)] =
      Except.error ("ValueError: cannot unpack key launched") := rfl

set_option maxRecDepth 40000 in
set_option maxHeartbeats 2000000 in
/-- Claim C2: the scanning loop of the shortcut decoder parses the
well-formed one-record fixture into one record (id 0) with the app id the
decoder derives from the stored bytes (the four appid bytes reversed with
the non-Steam tag `\x02\x00\x00\x00` appended, read big-endian) and stores
the executable's on-disk size under the key `size_on_disk`; but the
record-building pass reads the key `size`, whose
absence raises a `KeyError` that the `try` swallows, so the decoder
returns an empty mapping instead of the record (N = 1 parsed, 0
returned). -/
theorem get_non_steam_apps_loses_records :
    Except.map (fun d => d.map (fun p => (p.1,
        pyGet p.2 ("app_id"), pyHasKey p.2 ("size_on_disk"),
        pyHasKey p.2 ("size"))))
      (shortcutsLoop (shortcutsFixture.length + 1) shortcutsFixture
        (fun _ => Option.none) (fun _ => some 64) ("posix") 11 (-1) []) =
      Except.ok [(0, some (PyVal.int 12713136750592), true, false)] ∧
    get_non_steam_apps shortcutsFixture [] (fun _ => Option.none)
      (fun _ => some 64) ("posix") = Except.ok [] :=
  ⟨rfl, rfl⟩

/-- Claim C5: executing a launch action on a cached app increments the
record's launch counter and saves the updated cache before triggering the
cache rebuild, but it rewrites the `launched` field as
`TIMESTAMPxTIMES` with the OLD parsed timestamp (1000), not the current
time (2000): `datetime_to_timestamp` only falls back to `now` when no
previous launch exists. -/
theorem execute_action_keeps_old_timestamp :
    execute_action ("APPsteam://rungameid/10") fixturePrefs true
      [("apps", PyVal.dict [("10", PyVal.dict
        [("launched", PyVal.str ("1000x3"))])])]
      ("posix") 2000 0 =
    Except.ok [EnterEffect.spawn ("steam steam://rungameid/10"),
      EnterEffect.saveCache [("apps", PyVal.dict [("10", PyVal.dict
        [("launched", PyVal.str ("1000x4"))])])],
      EnterEffect.buildCache false] := rfl

set_option maxRecDepth 40000 in
set_option maxHeartbeats 2000000 in
/-- Claim C6 (amended): with a non-empty search the query keeps exactly
the items whose combined lowercased name-and-description text contains
every whitespace-separated search token as a substring; an item whose id
is in the app blacklist never appears among the returned app items; and
the token match is a plain substring test, so `"gta"` does NOT match
`Grand Theft Auto V` — a token that does occur in the name, such as
`"auto"`, returns the item. -/
theorem query_search_filter_and_blacklist (env : QueryEnv)
    (lang : List (String × List (String × String)))
    (preferences : List (String × String)) (tokens : List String)
    (items res : List SteamExtensionItem) (keyword : String)
    (search : Option String) (cache : List (String × PyVal)) (abl : List Int)
    (qres : List SteamExtensionItem)
    (hfil : filterMatching env lang preferences tokens items = Except.ok res)
    (hsort : ∀ (l : List SteamExtensionItem) it,
      it ∈ env.placementSort l → it ∈ l)
    (habl : get_blacklist ("app") preferences = Except.ok abl)
    (hq : query_cache env lang keyword preferences search cache =
      Except.ok qres) :
    (∀ it, it ∈ res ↔ it ∈ items ∧ ∃ text,
      itemText env lang preferences it = Except.ok text ∧
      tokens.all (fun w => pyContains text w) = true) ∧
    (∀ it ∈ qres, it.type = "app" →
      ∃ n, it.id = some n ∧ abl.contains n = false) ∧
    pyContains (pyLower ("Grand Theft Auto V")) ("gta") = false ∧
    queryShape (query_cache fixtureEnv [] ("sta") fixturePrefs
      (some ("auto")) fixtureCache) =
      Except.ok [("app", some ("Grand Theft Auto V"))] :=
  ⟨filterMatching_mem env lang preferences tokens items res hfil,
   query_cache_app_blacklist env lang keyword preferences search cache abl
     qres hsort habl hq,
   rfl, rfl⟩

set_option maxRecDepth 40000 in
set_option maxHeartbeats 2000000 in
/-- Counterexample to claim C6 as stated: `"gta"` is not a substring of
the lowercased `grand theft auto v`, so searching `"gta"` returns only
the no-results action item, although the very same query with an empty
search shows the app is in the cache and reaches the result list. -/
theorem query_search_gta_counterexample :
    pyContains (pyLower ("Grand Theft Auto V")) ("gta") = false ∧
    queryShape (query_cache fixtureEnv [] ("sta") fixturePrefs
      (some ("gta")) fixtureCache) =
      Except.ok [("action", some ("no_results"))] ∧
    queryShape (query_cache fixtureEnv [] ("sta") fixturePrefs
      Option.none fixtureCache) =
      Except.ok [("app", some ("Grand Theft Auto V"))] :=
  ⟨rfl, rfl, rfl⟩

set_option maxRecDepth 40000 in
set_option maxHeartbeats 2000000 in
/-- Witness for the amended claim C6 theorem at concrete inputs: the empty
item list filtered by the token `auto`, and a query over the empty cache,
whose only result is the no-results action item. -/
theorem query_search_filter_and_blacklist_witness :
    (∀ it, it ∈ ([] : List SteamExtensionItem) ↔
      it ∈ ([] : List SteamExtensionItem) ∧ ∃ text,
      itemText fixtureEnv [] fixturePrefs it = Except.ok text ∧
      (["auto"] : List String).all (fun w => pyContains text w) = true) ∧
    (∀ it ∈ [fixtureNoResults], it.type = "app" →
      ∃ n, it.id = some n ∧ ([] : List Int).contains n = false) ∧
    pyContains (pyLower ("Grand Theft Auto V")) ("gta") = false ∧
    queryShape (query_cache fixtureEnv [] ("sta") fixturePrefs
      (some ("auto")) fixtureCache) =
      Except.ok [("app", some ("Grand Theft Auto V"))] :=
  query_search_filter_and_blacklist fixtureEnv [] fixturePrefs ["auto"]
    [] [] ("sta") (some ("auto")) [] [] [fixtureNoResults]
    rfl (fun l it h => h) rfl rfl

end UlauncherSteam
